import Mathlib

/-!
# echo-middleware: response cache, key derivation and buffer pool

A shallow embedding of `cache/cache.go`, `cache/inmemory.go`, `cache/serializer.go`,
`buffer.go` and `heartbeat.go`.

* Go strings and byte slices are sequences of bytes, written `List Nat`.
* `time.Duration` and `int` values are `Int`.
* A Go `error` result is `Option Error` (`none` is `nil`).
* A Go panic is the `Except.error` outcome of a call.
* Mutable objects (the pooled buffers, the store, the connection behind the
  response writer, the request and the response) are threaded as explicit state.
* Libraries outside the repository: `gjson`, `strings.EqualFold` and `encoding/gob` are
  parameters of the functions that call them; `crypto/sha1`, `net/url`, `strconv`, the
  rest of `strings`, `echo` and `go-cache` are embedded after their published behaviour; the server side of `net/http` is a record of operations over an
  abstract connection state.
-/

set_option linter.dupNamespace false

namespace EchoMiddleware

/-! ## Bytes and strings -/

/-- Go `[]byte`. -/
abbrev Bytes := List Nat

/-- Go `string`: a sequence of bytes. -/
abbrev Str := List Nat

/-- The bytes of an ASCII string literal. -/
def str (s : String) : Str := s.toList.map Char.toNat

/-- Message carried by a Go panic. -/
abbrev Panic := String

/-- Go `strings.Join(elems, sep)`. -/
def stringsJoin : List Str → Str → Str
  | [], _ => []
  | [a], _ => a
  | a :: b :: rest, sep => a ++ sep ++ stringsJoin (b :: rest) sep

/-! ## crypto/sha1 -/

/-- Rotate a 32-bit word left by `n` bits. -/
def rotl32 (x n : Nat) : Nat := ((x <<< n) ||| (x >>> (32 - n))) % 2 ^ 32

/-- Big-endian bytes of an unsigned integer, `n` bytes wide. -/
def beBytes : Nat → Nat → Bytes
  | 0, _ => []
  | n + 1, x => beBytes n (x / 256) ++ [x % 256]

/-- Big-endian value of a byte sequence. -/
def beValue (bs : Bytes) : Nat := bs.foldl (fun acc b => acc * 256 + b % 256) 0

/-- SHA-1 padding: a 0x80 byte, zeros up to 56 modulo 64, then the bit length in 8 bytes. -/
def sha1Pad (msg : Bytes) : Bytes :=
  let zeros := (119 - msg.length % 64) % 64
  msg ++ [128] ++ List.replicate zeros 0 ++ beBytes 8 (msg.length * 8 % 2 ^ 64)

/-- Split a byte sequence into consecutive groups of `n` bytes (`fuel` bounds the count). -/
def chunksOf (n : Nat) : Nat → Bytes → List Bytes
  | 0, _ => []
  | fuel + 1, bs => if bs = [] then [] else bs.take n :: chunksOf n fuel (bs.drop n)

/-- Extend the 16-word message schedule by `n` further words. -/
def sha1Schedule : Nat → List Nat → List Nat
  | 0, w => w
  | n + 1, w =>
    let i := w.length
    let x := w.getD (i - 3) 0 ^^^ w.getD (i - 8) 0 ^^^ w.getD (i - 14) 0 ^^^ w.getD (i - 16) 0
    sha1Schedule n (w ++ [rotl32 x 1])

/-- The five 32-bit working variables of SHA-1. -/
structure Sha1State where
  a : Nat
  b : Nat
  c : Nat
  d : Nat
  e : Nat
  deriving DecidableEq, Repr

/-- Round `i` (0 to 79) with schedule word `wi`. -/
def sha1Round (i wi : Nat) (s : Sha1State) : Sha1State :=
  let f :=
    if i < 20 then (s.b &&& s.c) ||| (((s.b ^^^ (2 ^ 32 - 1)) % 2 ^ 32) &&& s.d)
    else if i < 40 then s.b ^^^ s.c ^^^ s.d
    else if i < 60 then (s.b &&& s.c) ||| (s.b &&& s.d) ||| (s.c &&& s.d)
    else s.b ^^^ s.c ^^^ s.d
  let k :=
    if i < 20 then 0x5A827999
    else if i < 40 then 0x6ED9EBA1
    else if i < 60 then 0x8F1BBCDC
    else 0xCA62C1D6
  let t := (rotl32 s.a 5 + f + s.e + k + wi) % 2 ^ 32
  { a := t, b := s.a, c := rotl32 s.b 30, d := s.c, e := s.d }

/-- Run the rounds over the schedule words, starting at round `i`. -/
def sha1Rounds : Nat → List Nat → Sha1State → Sha1State
  | _, [], s => s
  | i, wi :: rest, s => sha1Rounds (i + 1) rest (sha1Round i wi s)

/-- Process one 64-byte block. -/
def sha1Block (h : Sha1State) (block : Bytes) : Sha1State :=
  let w := sha1Schedule 64 ((chunksOf 4 16 block).map beValue)
  let r := sha1Rounds 0 w h
  { a := (h.a + r.a) % 2 ^ 32, b := (h.b + r.b) % 2 ^ 32, c := (h.c + r.c) % 2 ^ 32,
    d := (h.d + r.d) % 2 ^ 32, e := (h.e + r.e) % 2 ^ 32 }

/-- Initial hash value of SHA-1. -/
def sha1Init : Sha1State :=
  { a := 0x67452301, b := 0xEFCDAB89, c := 0x98BADCFE, d := 0x10325476, e := 0xC3D2E1F0 }

/-- The digest of `h := sha1.New(); io.WriteString(h, s); h.Sum(nil)`: 20 bytes. -/
def sha1Sum (msg : Bytes) : Bytes :=
  let padded := sha1Pad msg
  let h := (chunksOf 64 (padded.length / 64 + 1) padded).foldl sha1Block sha1Init
  beBytes 4 h.a ++ beBytes 4 h.b ++ beBytes 4 h.c ++ beBytes 4 h.d ++ beBytes 4 h.e

/-! ## net/url QueryEscape -/

/-- Bytes that `url.QueryEscape` leaves as they are: ASCII letters, digits, and the
four marks minus, underscore, period and tilde. -/
def unreserved (c : Nat) : Bool :=
  (97 ≤ c && c ≤ 122) || (65 ≤ c && c ≤ 90) || (48 ≤ c && c ≤ 57) ||
    c == 45 || c == 95 || c == 46 || c == 126

/-- The upper-case hexadecimal digit for `n < 16`. -/
def upperhex (n : Nat) : Nat := if n < 10 then 48 + n else 55 + n

/-- Escape one byte for a query component: a space becomes a plus sign, an unreserved
byte stays, anything else becomes a percent sign and two hexadecimal digits. -/
def escapeByte (c : Nat) : Str :=
  if c = 32 then [43]
  else if unreserved c then [c]
  else [37, upperhex (c / 16 % 16), upperhex (c % 16)]

/-- Go `url.QueryEscape(s)`. -/
def QueryEscape (s : Str) : Str := s.flatMap escapeByte

/-! ## buffer.go: the pooled byte buffers -/

/-- The process-wide `ByteBufferPool` together with the `bytes.Buffer` objects it has
created. A buffer is named by its address: `contents a` is the unread content of the
buffer at address `a`, `next` is the first address not yet allocated, and `pool` lists
the buffers currently held by the `sync.Pool`, the most recently returned first. -/
structure byteBufferPool where
  contents : Nat → Bytes
  next : Nat
  pool : List Nat

/-- An empty pool with no buffer allocated. -/
def byteBufferPool.empty : byteBufferPool := { contents := fun _ => [], next := 0, pool := [] }

/-- Go `ByteBufferPool.Get()`: a pooled buffer when there is one, else `new(bytes.Buffer)`. -/
def byteBufferPool.Get (p : byteBufferPool) : Nat × byteBufferPool :=
  match p.pool with
  | a :: rest => (a, { p with pool := rest })
  | [] => (p.next, { p with contents := Function.update p.contents p.next [], next := p.next + 1 })

/-- Go `ByteBufferPool.Put(buffer)`: `buffer.Reset()` and then `p.pool.Put(buffer)`
(an address is never nil). -/
def byteBufferPool.Put (p : byteBufferPool) (buffer : Nat) : byteBufferPool :=
  { p with contents := Function.update p.contents buffer [], pool := buffer :: p.pool }

/-- Go `buffer.WriteString(s)` and `buffer.Write(b)`: append to the buffer. -/
def byteBufferPool.WriteString (p : byteBufferPool) (buffer : Nat) (s : Str) : byteBufferPool :=
  { p with contents := Function.update p.contents buffer (p.contents buffer ++ s) }

/-- Go `buffer.String()`: a copy of the unread content. -/
def byteBufferPool.String (p : byteBufferPool) (buffer : Nat) : Str := p.contents buffer

/-- The pool invariant: no buffer is pooled twice, and every pooled buffer has been
allocated and is empty (`Put` resets a buffer before pooling it). -/
def byteBufferPool.wf (p : byteBufferPool) : Prop :=
  p.pool.Nodup ∧ ∀ a ∈ p.pool, a < p.next ∧ p.contents a = []

/-! ## The request -/

/-- The body stream of a request: either the client's stream with `data` still unread,
or `ioutil.NopCloser(buf)` over the pooled buffer at `addr`. -/
inductive Body where
  | stream (data : Bytes)
  | buffer (addr : Nat)
  deriving DecidableEq, Repr

/-- The parts of `http.Request` the middlewares use. -/
structure Request where
  Method : Str
  Path : Str
  RequestURI : Str
  Body : Body
  deriving DecidableEq, Repr

/-- Go `ioutil.ReadAll(body)`: the bytes read up to end of stream, the drained body,
and the pool, in which a buffer-backed body has been emptied by the reads. -/
def Body.ReadAll (b : Body) (p : byteBufferPool) : Bytes × Body × byteBufferPool :=
  match b with
  | .stream data => (data, .stream [], p)
  | .buffer addr =>
    (p.contents addr, .buffer addr, { p with contents := Function.update p.contents addr [] })

/-- Go `ioutil.ReadAll(io.TeeReader(body, buf))`: every byte read from `body` is also
written to the buffer `buf`. The writes are placed after the reads, which gives the same
result as interleaving them whenever `body` does not read from `buf` itself. -/
def teeReadAll (b : Body) (buf : Nat) (p : byteBufferPool) : Bytes × Body × byteBufferPool :=
  let (bytes, b1, p1) := b.ReadAll p
  (bytes, b1, p1.WriteString buf bytes)

/-! ## cache.go: key derivation -/

/-- Go `urlEscape(prefix, u)`, with the buffer pool as state. The deferred `Put` runs
after the result string has been taken from the buffer. -/
def urlEscape (pre : Str) (u : Str) (p : byteBufferPool) : Str × byteBufferPool :=
  let key := QueryEscape u
  let key := if key.length > 200 then sha1Sum u else key
  let (buffer, p) := p.Get
  let p := p.WriteString buffer pre
  let p := p.WriteString buffer (str ":")
  let p := p.WriteString buffer key
  let result := p.String buffer
  (result, p.Put buffer)

/-- Go `jsonPostKey(prefix, request, keys)`, with the request and the buffer pool as
state. `gjsonGet bytes k` stands for `gjson.GetBytes(bytes, k).String()`. The deferred
calls run last, most recent first: `Put(buffer)`, then `Put(buf)` when `len(keys) > 0`. -/
def jsonPostKey (gjsonGet : Bytes → Str → Str) (pre : Str) (request : Request)
    (keys : List Str) (p : byteBufferPool) : Str × Request × byteBufferPool :=
  let uri := request.RequestURI
  let (vkeys, request, p, deferred) :=
    if keys.length > 0 then
      let (buf, p) := p.Get
      let (bytes, _, p) := teeReadAll request.Body buf p
      let vkeys := keys.map (gjsonGet bytes)
      (vkeys, { request with Body := .buffer buf }, p, [buf])
    else
      (([] : List Str), request, p, ([] : List Nat))
  let key := stringsJoin vkeys (str ",")
  let key := if key.length > 200 then sha1Sum uri else key
  let (buffer, p) := p.Get
  let p := p.WriteString buffer pre
  let p := p.WriteString buffer (str ":")
  let p := p.WriteString buffer uri
  let p := p.WriteString buffer (str "?")
  let p := p.WriteString buffer key
  let result := p.String buffer
  (result, request, (buffer :: deferred).foldl byteBufferPool.Put p)

/-! ## cache.go: errors, values and the Store interface -/

/-- Go `error` values: the three package errors and any other error, known by its
message. -/
inductive Error where
  | ErrCacheMiss
  | ErrNotStored
  | ErrNotSupport
  | other (msg : Str)
  deriving DecidableEq, Repr

/-- Go `err.Error()`. -/
def Error.Error : Error → Str
  | .ErrCacheMiss => str "cache: key not found."
  | .ErrNotStored => str "cache: not stored."
  | .ErrNotSupport => str "cache: not support."
  | .other msg => msg

/-- Go `DefaultExpiration = 5 * time.Second`, in nanoseconds. -/
def DefaultExpiration : Int := 5 * 1000000000

/-- Go `StayForever = time.Duration(-1)`. -/
def StayForever : Int := -1

/-- Go `PageCachePrefix`. -/
def PageCachePrefix : Str := str "echo-middleware.page.cache"

/-- Go `http.Header`. -/
abbrev Header := List (Str × List Str)

/-- Go `responseCache`. -/
structure responseCache where
  status : Int
  header : Header
  data : Bytes
  deriving DecidableEq, Repr

/-- The Go integer types. -/
inductive IntKind where
  | int | int8 | int16 | int32 | int64
  | uint | uint8 | uint16 | uint32 | uint64 | uintptr
  deriving DecidableEq, Repr

/-- The dynamic values (`interface{}`) the stores are used with. -/
inductive Value where
  | nil
  | integer (kind : IntKind) (v : Int)
  | bytes (b : Bytes)
  | string (s : Str)
  | response (r : responseCache)
  deriving DecidableEq, Repr

/-- The static types of those values, and `interface{}` itself. -/
inductive GoType where
  | integer (kind : IntKind)
  | bytes
  | string
  | response
  | iface
  deriving DecidableEq, Repr

/-- The dynamic type of a value; the nil interface has none. -/
def Value.type : Value → Option GoType
  | .nil => none
  | .integer k _ => some (.integer k)
  | .bytes _ => some .bytes
  | .string _ => some .string
  | .response _ => some .response

/-- The destination argument `value interface{}` of `Store.Get`: a value that is not a
pointer (`value .nil` is the nil interface), a nil pointer to a `t`, or a pointer to a
variable of type `t` currently holding `cur`. -/
inductive Target where
  | value (v : Value)
  | nilPtr (t : GoType)
  | ptr (t : GoType) (cur : Value)
  deriving DecidableEq, Repr

/-- The content of a `responseCache` variable after a call that was given its address. -/
def Target.response (t : Target) (old : responseCache) : responseCache :=
  match t with
  | .ptr _ (.response r) => r
  | _ => old

/-- Go `Store`, over the store state `σ`. Every method takes the state and returns the
new state with its results, or panics. -/
structure Store (σ : Type) where
  Get : Str → Target → σ → Except Panic (σ × Target × Option Error)
  Set : Str → Value → Int → σ → Except Panic (σ × Option Error)
  Add : Str → Value → Int → σ → Except Panic (σ × Option Error)
  Replace : Str → Value → Int → σ → Except Panic (σ × Option Error)
  Delete : Str → σ → Except Panic (σ × Option Error)
  Increment : Str → Int → σ → Except Panic (σ × Int × Option Error)
  Decrement : Str → Int → σ → Except Panic (σ × Int × Option Error)
  Flush : σ → Except Panic (σ × Option Error)

/-! ## cache.go: the intercepting response writer -/

/-- Go `http.ResponseWriter` as the server provides it, over the connection state `ω`.
`SetHeader k v` is `Header().Set(k, v)`. -/
structure ResponseWriter (ω : Type) where
  Header : ω → Header
  SetHeader : Str → Str → ω → ω
  Write : Bytes → ω → ω × Int × Option Error
  WriteHeader : Int → ω → ω

/-- Go `cachedWriter`. The embedded `http.ResponseWriter` is the writer it was installed
around (the rest of the writer chain); the logger is not modelled. -/
structure cachedWriter (σ : Type) where
  status : Int
  written : Bool
  store : Store σ
  expire : Int
  key : Str

/-- Go `newCachedWriter(store, expire, responseWriter, key, logger)`. -/
def newCachedWriter {σ : Type} (store : Store σ) (expire : Int) (key : Str) : cachedWriter σ :=
  { status := 0, written := false, store := store, expire := expire, key := key }

/-- Go `cachedWriter.WriteHeader(code)`; `embedded` is `w.ResponseWriter.WriteHeader`,
with `β` what the embedded writer leaves behind. -/
def cachedWriter.WriteHeader {σ β : Type} (w : cachedWriter σ) (embedded : Int → β)
    (code : Int) : cachedWriter σ × β :=
  ({ w with status := code, written := true }, embedded code)

/-- Go `cachedWriter.Status()`. -/
def cachedWriter.Status {σ : Type} (w : cachedWriter σ) : Int := w.status

/-- Go `cachedWriter.Written()`. -/
def cachedWriter.Written {σ : Type} (w : cachedWriter σ) : Bool := w.written

/-- Go `cachedWriter.Write(data)` over the store state and the connection state;
`embedded` is `w.ResponseWriter.Write` and `header` is `w.Header()`. -/
def cachedWriter.Write {σ ω : Type} (w : cachedWriter σ)
    (embedded : Bytes → σ × ω → Except Panic ((σ × ω) × Int × Option Error))
    (header : ω → Header) (data : Bytes) (s : σ × ω) :
    Except Panic ((σ × ω) × Int × Option Error) :=
  match embedded data s with
  | .error e => .error e
  | .ok (s1, ret, err) =>
    if err = none ∧ w.status = 200 then
      let store := w.store
      let val : responseCache := { status := 200, header := header s1.2, data := data }
      match store.Set w.key (.response val) w.expire s1.1 with
      | .error e => .error e
      | .ok (st, err) => .ok ((st, s1.2), ret, err)
    else
      .ok (s1, ret, err)

/-- The server's writer as the innermost `Write` of a writer chain. -/
def baseWrite {σ ω : Type} (base : ResponseWriter ω) (data : Bytes) (s : σ × ω) :
    Except Panic ((σ × ω) × Int × Option Error) :=
  let (conn, n, err) := base.Write data s.2
  .ok ((s.1, conn), n, err)

/-- The method `Write` of `c.Response().Writer`: the installed `cachedWriter`s, outermost
first, around the server's writer. -/
def writerWrite {σ ω : Type} (base : ResponseWriter ω) :
    List (cachedWriter σ) → Bytes → σ × ω → Except Panic ((σ × ω) × Int × Option Error)
  | [] => baseWrite base
  | w :: rest => w.Write (writerWrite base rest) base.Header

/-- The method `WriteHeader` of `c.Response().Writer`: every installed `cachedWriter`
records the code, and the server's writer receives it. -/
def writerWriteHeader {σ ω : Type} (base : ResponseWriter ω) :
    List (cachedWriter σ) → Int → ω → List (cachedWriter σ) × ω
  | [], code, conn => ([], base.WriteHeader code conn)
  | w :: rest, code, conn =>
    let r := w.WriteHeader (fun cd => writerWriteHeader base rest cd conn) code
    (r.1 :: r.2.1, r.2.2)

/-! ## The echo framework: response and context -/

/-- Go `echo.Response`: the server's writer `base`, the `cachedWriter`s installed around
it (`Writer` is that chain, outermost first), and the bookkeeping fields. -/
structure Response (σ ω : Type) where
  base : ResponseWriter ω
  Writer : List (cachedWriter σ)
  Status : Int
  Size : Int
  Committed : Bool

/-- Go `echo.Context` together with the process state a handler can reach: the buffer
pool, the state of the cache store, the state of the connection, the request, the
response, and the value stored under `CacheMiddlewareKey` (`none` when unset). -/
structure Context (σ ω : Type) where
  pool : byteBufferPool
  store : σ
  conn : ω
  request : Request
  response : Response σ ω
  cacheStore : Option (Store σ)

/-- Go `echo.HandlerFunc`: the context after the call and the returned error, or a panic. -/
abbrev HandlerFunc (σ ω : Type) := Context σ ω → Except Panic (Context σ ω × Option Error)

/-- Go `echo.Response.WriteHeader(code)`: ignored once the response is committed. -/
def Response.WriteHeader {σ ω : Type} (c : Context σ ω) (code : Int) : Context σ ω :=
  if c.response.Committed then c
  else
    let r := writerWriteHeader c.response.base c.response.Writer code c.conn
    { c with
      conn := r.2
      response := { c.response with Status := code, Writer := r.1, Committed := true } }

/-- Go `echo.Response.Write(b)`: commits with status 200 when nothing was committed,
then writes through `Writer`. -/
def Response.Write {σ ω : Type} (c : Context σ ω) (b : Bytes) :
    Except Panic (Context σ ω × Int × Option Error) :=
  let c := if c.response.Committed then c else Response.WriteHeader c 200
  match writerWrite c.response.base c.response.Writer b (c.store, c.conn) with
  | .error e => .error e
  | .ok (s, n, err) =>
    .ok ({ c with store := s.1, conn := s.2, response := { c.response with Size := c.response.Size + n } },
      n, err)

/-- Go `echo.Context.JSONBlob(code, b)`: set the content type, write the header, write
the body. -/
def Context.JSONBlob {σ ω : Type} (code : Int) (b : Bytes) (c : Context σ ω) :
    Except Panic (Context σ ω × Option Error) :=
  let conn := c.response.base.SetHeader (str "Content-Type")
    (str "application/json; charset=UTF-8") c.conn
  let c := { c with conn := conn }
  let c := Response.WriteHeader c code
  match Response.Write c b with
  | .error e => .error e
  | .ok (c, _, err) => .ok (c, err)

/-- Go `echo.Context.Blob(code, contentType, b)`: set the content type, write the header,
write the body. -/
def Context.Blob {σ ω : Type} (code : Int) (contentType : Str) (b : Bytes) (c : Context σ ω) :
    Except Panic (Context σ ω × Option Error) :=
  let conn := c.response.base.SetHeader (str "Content-Type") contentType c.conn
  let c := { c with conn := conn }
  let c := Response.WriteHeader c code
  match Response.Write c b with
  | .error e => .error e
  | .ok (c, _, err) => .ok (c, err)

/-- Go `echo.Context.String(code, s)`. -/
def Context.String {σ ω : Type} (code : Int) (s : Str) (c : Context σ ω) :
    Except Panic (Context σ ω × Option Error) :=
  Context.Blob code (str "text/plain; charset=UTF-8") s c

/-! ## cache.go: the middlewares -/

/-- Go `Config`; a nil `Skipper` is `none`. -/
structure Config (σ ω : Type) where
  Expire : Int
  Skipper : Option (Context σ ω → Bool)

/-- Go `DefaultCacheConfig`; `emw.DefaultSkipper` returns false. -/
def DefaultCacheConfig {σ ω : Type} : Config σ ω :=
  { Expire := DefaultExpiration, Skipper := some (fun _ => false) }

/-- Go `SetCacheStore(store)`. -/
def SetCacheStore {σ ω : Type} (store : Store σ) (next : HandlerFunc σ ω) : HandlerFunc σ ω :=
  fun c => next { c with cacheStore := some store }

/-- Go `JSONPostPageCache(config, keys...)`, applied to `next`. The type assertion
`c.Get(CacheMiddlewareKey).(Store)` panics when no store was set. -/
def JSONPostPageCache {σ ω : Type} (gjsonGet : Bytes → Str → Str) (config : Config σ ω)
    (keys : List Str) (next : HandlerFunc σ ω) : HandlerFunc σ ω :=
  let config :=
    if config.Expire = 0 then { config with Expire := (DefaultCacheConfig : Config σ ω).Expire }
    else config
  let config :=
    if config.Skipper.isNone then { config with Skipper := (DefaultCacheConfig : Config σ ω).Skipper }
    else config
  fun c =>
    match c.cacheStore with
    | none => .error "interface conversion: interface {} is nil, not cache.Store"
    | some store =>
      let cache : responseCache := { status := 0, header := [], data := [] }
      let r := jsonPostKey gjsonGet PageCachePrefix c.request keys c.pool
      let key := r.1
      let c := { c with request := r.2.1, pool := r.2.2 }
      match store.Get key (.ptr .response (.response cache)) c.store with
      | .error e => .error e
      | .ok (st, _, some _) =>
        let writer := newCachedWriter store config.Expire key
        next { c with
          store := st
          response := { c.response with Writer := writer :: c.response.Writer } }
      | .ok (st, target, none) =>
        let cache := target.response cache
        Context.JSONBlob cache.status cache.data { c with store := st }

/-! ## heartbeat.go -/

/-- Go `gocache.Item`. -/
structure Item where
  Object : Value
  Expiration : Int
  deriving DecidableEq, Repr

/-- Go `gocache.Cache`: the default expiration, the items, and `now`, the reading of
`time.Now().UnixNano()`. -/
structure Cache where
  defaultExpiration : Int
  items : Str → Option Item
  now : Int

/-- Go `Item.Expired()`. -/
def Item.Expired (item : Item) (now : Int) : Bool :=
  if item.Expiration = 0 then false else decide (now > item.Expiration)

/-- Go `gocache.New(defaultExpiration, cleanupInterval)` at time `now`: a default
expiration of 0 becomes -1. The janitor only removes items `Get` no longer returns. -/
def Cache.New (defaultExpiration : Int) (now : Int) : Cache :=
  { defaultExpiration := if defaultExpiration = 0 then -1 else defaultExpiration
    items := fun _ => none
    now := now }

/-- Time passes: the clock advances by `d` nanoseconds. -/
def Cache.advance (c : Cache) (d : Nat) : Cache := { c with now := c.now + d }

/-- Go `Cache.Get(k)`: `none` is `(nil, false)`. -/
def Cache.Get (c : Cache) (k : Str) : Option Value :=
  match c.items k with
  | none => none
  | some item =>
    if item.Expiration > 0 ∧ c.now > item.Expiration then none else some item.Object

/-- Go `Cache.Set(k, x, d)`. -/
def Cache.Set (c : Cache) (k : Str) (x : Value) (d : Int) : Cache :=
  let d := if d = 0 then c.defaultExpiration else d
  let e := if d > 0 then c.now + d else 0
  { c with items := Function.update c.items k (some { Object := x, Expiration := e }) }

/-- Go `Cache.Add(k, x, d)`. -/
def Cache.Add (c : Cache) (k : Str) (x : Value) (d : Int) : Cache × Option Error :=
  match c.Get k with
  | some _ => (c, some (.other (str "Item " ++ k ++ str " already exists")))
  | none => (c.Set k x d, none)

/-- Go `Cache.Replace(k, x, d)`. -/
def Cache.Replace (c : Cache) (k : Str) (x : Value) (d : Int) : Cache × Option Error :=
  match c.Get k with
  | none => (c, some (.other (str "Item " ++ k ++ str " doesn't exist")))
  | some _ => (c.Set k x d, none)

/-- Go `Cache.Delete(k)`. -/
def Cache.Delete (c : Cache) (k : Str) : Cache :=
  { c with items := Function.update c.items k none }

/-- Go `Cache.Flush()`. -/
def Cache.Flush (c : Cache) : Cache := { c with items := fun _ => none }

/-- Width in bits of a Go integer type on a 64-bit platform. -/
def IntKind.bits : IntKind → Nat
  | .int => 64 | .int8 => 8 | .int16 => 16 | .int32 => 32 | .int64 => 64
  | .uint => 64 | .uint8 => 8 | .uint16 => 16 | .uint32 => 32 | .uint64 => 64 | .uintptr => 64

/-- Whether a Go integer type is signed. -/
def IntKind.signed : IntKind → Bool
  | .int | .int8 | .int16 | .int32 | .int64 => true
  | _ => false

/-- Conversion of an integer to a Go integer type: the value modulo `2 ^ bits`, taken
in the range of the type. -/
def IntKind.wrap (k : IntKind) (x : Int) : Int :=
  let m : Int := 2 ^ k.bits
  if k.signed then (x + m / 2) % m - m / 2 else x % m

/-- The least value of a Go integer type. -/
def IntKind.min (k : IntKind) : Int := if k.signed then -(2 ^ (k.bits - 1)) else 0

/-- The greatest value of a Go integer type. -/
def IntKind.max (k : IntKind) : Int := if k.signed then 2 ^ (k.bits - 1) - 1 else 2 ^ k.bits - 1

/-- Go `Cache.Increment(k, n)`: adds `n`, converted to the item's integer type, with
wrap-around. -/
def Cache.Increment (c : Cache) (k : Str) (n : Int) : Cache × Option Error :=
  match c.items k with
  | none => (c, some (.other (str "Item " ++ k ++ str " not found")))
  | some v =>
    if v.Expired c.now then (c, some (.other (str "Item " ++ k ++ str " not found")))
    else
      match v.Object with
      | .integer kind x =>
        let v := { v with Object := .integer kind (kind.wrap (x + kind.wrap n)) }
        ({ c with items := Function.update c.items k (some v) }, none)
      | _ => (c, some (.other (str "The value for " ++ k ++ str " is not an integer")))

/-- Go `Cache.Decrement(k, n)`. -/
def Cache.Decrement (c : Cache) (k : Str) (n : Int) : Cache × Option Error :=
  match c.items k with
  | none => (c, some (.other (str "Item not found")))
  | some v =>
    if v.Expired c.now then (c, some (.other (str "Item not found")))
    else
      match v.Object with
      | .integer kind x =>
        let v := { v with Object := .integer kind (kind.wrap (x - kind.wrap n)) }
        ({ c with items := Function.update c.items k (some v) }, none)
      | _ => (c, some (.other (str "The value for " ++ k ++ str " is not an integer")))

/-! ## inmemory.go -/

/-- Go `InMemoryStore`. -/
structure InMemoryStore where
  Cache : Cache

/-- Go `NewInMemoryStore(defaultExpiration)`, created at time `now`. -/
def NewInMemoryStore (defaultExpiration : Int) (now : Int) : InMemoryStore :=
  { Cache := Cache.New defaultExpiration now }

/-- Go `strings.HasSuffix(s, suffix)`. -/
def HasSuffix (s suffix : Str) : Bool := suffix.isSuffixOf s

/-- Go `covertInMemCacheError(err)`. -/
def covertInMemCacheError (err : Option Error) : Option Error :=
  match err with
  | some e =>
    let msg := e.Error
    if HasSuffix msg (str "doesn't exist") then some .ErrCacheMiss
    else if HasSuffix msg (str "already exists") then some .ErrNotStored
    else if HasSuffix msg (str "not found") then some .ErrCacheMiss
    else err
  | none => err

/-- Go `InMemoryStore.Get(key, value)`. `reflect` panics on a nil interface destination,
on a stored nil value, and on a stored value not assignable to the destination's type. -/
def InMemoryStore.Get (c : InMemoryStore) (key : Str) (value : Target) :
    Except Panic (InMemoryStore × Target × Option Error) :=
  match c.Cache.Get key with
  | none => .ok (c, value, some .ErrCacheMiss)
  | some val =>
    match value with
    | .value .nil => .error "reflect: call of reflect.Value.Type on zero Value"
    | .ptr t _ =>
      match val.type with
      | none => .error "reflect: call of reflect.Value.Set on zero Value"
      | some vt =>
        if vt = t ∨ t = .iface then .ok (c, .ptr t val, none)
        else .error "reflect.Set: value is not assignable to the destination type"
    | _ => .ok (c, value, some .ErrNotStored)

/-- Go `InMemoryStore.Set(key, value, expires)`. -/
def InMemoryStore.Set (c : InMemoryStore) (key : Str) (value : Value) (expires : Int) :
    Except Panic (InMemoryStore × Option Error) :=
  .ok ({ c with Cache := c.Cache.Set key value expires }, none)

/-- Go `InMemoryStore.Add(key, value, expires)`. -/
def InMemoryStore.Add (c : InMemoryStore) (key : Str) (value : Value) (expires : Int) :
    Except Panic (InMemoryStore × Option Error) :=
  let r := c.Cache.Add key value expires
  .ok ({ c with Cache := r.1 }, covertInMemCacheError r.2)

/-- Go `InMemoryStore.Replace(key, value, expires)`. -/
def InMemoryStore.Replace (c : InMemoryStore) (key : Str) (value : Value) (expires : Int) :
    Except Panic (InMemoryStore × Option Error) :=
  let r := c.Cache.Replace key value expires
  if r.2 ≠ none then .ok ({ c with Cache := r.1 }, some .ErrNotStored)
  else .ok ({ c with Cache := r.1 }, none)

/-- Go `InMemoryStore.Delete(key)`. -/
def InMemoryStore.Delete (c : InMemoryStore) (key : Str) :
    Except Panic (InMemoryStore × Option Error) :=
  .ok ({ c with Cache := c.Cache.Delete key }, none)

/-- The type assertion `newValue.(int64)`. -/
def assertInt64 (newValue : Option Value) : Except Panic Int :=
  match newValue with
  | some (.integer .int64 v) => .ok v
  | _ => .error "interface conversion: interface {} is not int64"

/-- Go `InMemoryStore.Increment(key, n)`. -/
def InMemoryStore.Increment (c : InMemoryStore) (key : Str) (n : Int) :
    Except Panic (InMemoryStore × Int × Option Error) :=
  let r := c.Cache.Increment key n
  if r.2 ≠ none then .ok ({ c with Cache := r.1 }, 0, covertInMemCacheError r.2)
  else
    match assertInt64 (r.1.Get key) with
    | .error e => .error e
    | .ok v => .ok ({ c with Cache := r.1 }, v, none)

/-- Go `InMemoryStore.Decrement(key, n)`. -/
def InMemoryStore.Decrement (c : InMemoryStore) (key : Str) (n : Int) :
    Except Panic (InMemoryStore × Int × Option Error) :=
  let r := c.Cache.Decrement key n
  if r.2 ≠ none then .ok ({ c with Cache := r.1 }, 0, covertInMemCacheError r.2)
  else
    match assertInt64 (r.1.Get key) with
    | .error e => .error e
    | .ok v => .ok ({ c with Cache := r.1 }, v, none)

/-- Go `InMemoryStore.Flush()`. -/
def InMemoryStore.Flush (c : InMemoryStore) : Except Panic (InMemoryStore × Option Error) :=
  .ok ({ c with Cache := c.Cache.Flush }, none)

/-- The `*InMemoryStore` as a `Store`. -/
def inMemoryStore : Store InMemoryStore where
  Get := fun key value c => c.Get key value
  Set := fun key value expires c => c.Set key value expires
  Add := fun key value expires c => c.Add key value expires
  Replace := fun key value expires c => c.Replace key value expires
  Delete := fun key c => c.Delete key
  Increment := fun key n c => c.Increment key n
  Decrement := fun key n c => c.Decrement key n
  Flush := fun c => c.Flush

/-! ## strconv -/

/-- The decimal digits of `n`, least significant first; `fuel` bounds their number. -/
def digitsRev : Nat → Nat → List Nat
  | 0, _ => []
  | fuel + 1, n => if n < 10 then [n] else n % 10 :: digitsRev fuel (n / 10)

/-- Go `strconv.FormatUint(n, 10)`. -/
def FormatUint (n : Nat) : Str := (digitsRev (n + 1) n).reverse.map (fun d => 48 + d)

/-- Go `strconv.FormatInt(i, 10)`. -/
def FormatInt (i : Int) : Str :=
  if i < 0 then 45 :: FormatUint i.natAbs else FormatUint i.toNat

/-- Go `strconv.ErrSyntax` and `strconv.ErrRange`. -/
inductive NumErr where
  | ErrSyntax
  | ErrRange
  deriving DecidableEq, Repr

/-- Go `strconv.NumError`. -/
structure NumError where
  Func : Str
  Num : Str
  Err : NumErr
  deriving DecidableEq, Repr

/-- Go `NumError.Error()`; the escapes `strconv.Quote` applies to special bytes of the
input are not reproduced. -/
def NumError.Error (e : NumError) : Str :=
  str "strconv." ++ e.Func ++ str ": parsing \"" ++ e.Num ++ str "\": " ++
    (match e.Err with
      | .ErrSyntax => str "invalid syntax"
      | .ErrRange => str "value out of range")

/-- A `*NumError` as a Go `error`. -/
def NumError.toError (e : NumError) : EchoMiddleware.Error := .other e.Error

/-- Go `syntaxError(fn, str)`. -/
def syntaxError (fn s : Str) : NumError := { Func := fn, Num := s, Err := .ErrSyntax }

/-- Go `rangeError(fn, str)`. -/
def rangeError (fn s : Str) : NumError := { Func := fn, Num := s, Err := .ErrRange }

/-- The greatest `uint64`, `1<<64 - 1`. -/
def maxUint64 : Nat := 18446744073709551615

/-- The loop of `strconv.ParseUint(s, 10, 64)` over the bytes still to read, with the
value read so far. Every byte that is not a digit is a syntax error in base 10; the
arithmetic is that of `uint64`. -/
def parseUintLoop (s0 : Str) : List Nat → Nat → Nat × Option NumError
  | [], n => (n, none)
  | c :: rest, n =>
    if 48 ≤ c ∧ c ≤ 57 then
      if n ≥ maxUint64 / 10 + 1 then (maxUint64, some (rangeError (str "ParseUint") s0))
      else
        let n10 := n * 10 % 2 ^ 64
        let n1 := (n10 + (c - 48)) % 2 ^ 64
        if n1 < n10 ∨ n1 > maxUint64 then (maxUint64, some (rangeError (str "ParseUint") s0))
        else parseUintLoop s0 rest n1
    else (0, some (syntaxError (str "ParseUint") s0))

/-- Go `strconv.ParseUint(s, 10, 64)`. -/
def ParseUint (s : Str) : Nat × Option NumError :=
  if s = [] then (0, some (syntaxError (str "ParseUint") s)) else parseUintLoop s s 0

/-- Go `strconv.ParseInt(s, 10, 64)`. -/
def ParseInt (s : Str) : Int × Option NumError :=
  match s with
  | [] => (0, some (syntaxError (str "ParseInt") s))
  | c :: rest =>
    let neg := decide (c = 45)
    let s1 := if c = 43 ∨ c = 45 then rest else s
    let r := ParseUint s1
    if r.2.map (fun e => e.Err) = some .ErrSyntax then (0, some (syntaxError (str "ParseInt") s))
    else
      let un := r.1
      let cutoff : Nat := 2 ^ 63
      if neg = false ∧ un ≥ cutoff then ((cutoff : Int) - 1, some (rangeError (str "ParseInt") s))
      else if neg = true ∧ un > cutoff then (-(cutoff : Int), some (rangeError (str "ParseInt") s))
      else
        let n := IntKind.int64.wrap un
        (if neg then IntKind.int64.wrap (-n) else n, none)

/-! ## serializer.go -/

/-- Go `serialize(value)`, with the buffer pool as state. `gobEncode value` stands for
what `gob.NewEncoder(b).Encode(value)` writes and returns. The integer kinds of the
`switch` are the five signed and the five unsigned ones; `uintptr` is not among them.
On the gob path the slice returned is that of a buffer already handed back to the pool;
the result here is its contents at the time of the return. -/
def serialize (gobEncode : Value → Bytes × Option Error) (value : Value) (p : byteBufferPool) :
    (Bytes × Option Error) × byteBufferPool :=
  let gob : (Bytes × Option Error) × byteBufferPool :=
    let (b, p) := p.Get
    let r := gobEncode value
    let p := p.WriteString b r.1
    if r.2 ≠ none then (([], r.2), p.Put b) else ((p.String b, none), p.Put b)
  match value with
  | .bytes bytes => ((bytes, none), p)
  | .integer k v =>
    if k.signed then ((FormatInt v, none), p)
    else if k ≠ .uintptr then ((FormatUint v.toNat, none), p)
    else gob
  | _ => gob

/-- Go `deserialize(byt, ptr)`. `gobDecode byt ptr` stands for
`gob.NewDecoder(bytes.NewBuffer(byt)).Decode(ptr)`. -/
def deserialize (gobDecode : Bytes → Target → Except Panic (Target × Option Error))
    (byt : Bytes) (ptr : Target) : Except Panic (Target × Option Error) :=
  match ptr with
  | .ptr .bytes _ => .ok (.ptr .bytes (.bytes byt), none)
  | .nilPtr .bytes => .error "runtime error: invalid memory address or nil pointer dereference"
  | .ptr (.integer k) _ =>
    if k.signed then
      let r := ParseInt byt
      match r.2 with
      | some err => .ok (ptr, some err.toError)
      | none => .ok (.ptr (.integer k) (.integer k (k.wrap r.1)), none)
    else if k ≠ .uintptr then
      let r := ParseUint byt
      match r.2 with
      | some err => .ok (ptr, some err.toError)
      | none => .ok (.ptr (.integer k) (.integer k (k.wrap r.1)), none)
    else gobDecode byt ptr
  | _ => gobDecode byt ptr

/-! ## Decimal text -/

/-- The number that a string of decimal digits denotes. -/
def decimalValue (s : Str) : Nat := s.foldl (fun acc c => acc * 10 + (c - 48)) 0

/-- A non-empty string of the digits 0 to 9. -/
def isDecimal (s : Str) : Prop := s ≠ [] ∧ ∀ c ∈ s, 48 ≤ c ∧ c ≤ 57

/-- The string `s` is base-10 text of the integer `v`: decimal digits, after an optional
plus sign, or after a minus sign. -/
def DecimalText (s : Str) (v : Int) : Prop :=
  (isDecimal s ∧ v = decimalValue s) ∨
    (∃ r, s = 43 :: r ∧ isDecimal r ∧ v = decimalValue r) ∨
    (∃ r, s = 45 :: r ∧ isDecimal r ∧ v = -(decimalValue r : Int))

/-! ## Collaborators used in the worked examples -/

/-- A connection as a test recorder sees it: the header map, the status line sent (0
while none was sent) and the body bytes sent. -/
structure Conn where
  header : Header
  status : Int
  body : Bytes
  deriving DecidableEq, Repr

/-- A server response writer over `Conn`: the first `WriteHeader` fixes the status, and a
`Write` sends status 200 when none was sent and appends to the body. -/
def connWriter : ResponseWriter Conn where
  Header := fun c => c.header
  SetHeader := fun k v c => { c with header := (k, [v]) :: c.header.filter (fun e => e.1 ≠ k) }
  WriteHeader := fun code c => if c.status = 0 then { c with status := code } else c
  Write := fun data c =>
    ({ c with status := if c.status = 0 then 200 else c.status, body := c.body ++ data },
      data.length, none)

/-- A connection on which nothing was sent yet. -/
def Conn.fresh : Conn := { header := [], status := 0, body := [] }

/-- The handler body `for each chunk: if _, err := c.Response().Write(chunk); err != nil
{ return err }; return nil`. -/
def writeChunks {σ ω : Type} : List Bytes → HandlerFunc σ ω
  | [], c => .ok (c, none)
  | b :: rest, c =>
    match Response.Write c b with
    | .error e => .error e
    | .ok (c1, _, some err) => .ok (c1, some err)
    | .ok (c1, _, none) => writeChunks rest c1

/-- A handler that responds with `WriteHeader(code)` followed by one `Write` per chunk. -/
def respondWith {σ ω : Type} (code : Int) (chunks : List Bytes) : HandlerFunc σ ω :=
  fun c => writeChunks chunks (Response.WriteHeader c code)

/-- A fresh exchange: an empty buffer pool, the given store state, a fresh connection,
an uncommitted response on the server's writer, and the store set in the context. -/
def Context.start {σ : Type} (S : Store σ) (st : σ) (request : Request) : Context σ Conn :=
  { pool := byteBufferPool.empty
    store := st
    conn := Conn.fresh
    request := request
    response := { base := connWriter, Writer := [], Status := 0, Size := 0, Committed := false }
    cacheStore := some S }

/-- A JSON object whose member `id` is a string of 201 copies of the byte `c`. -/
def longDoc (c : Nat) : Bytes := str "\x7b\"id\":\"" ++ List.replicate 201 c ++ str "\"\x7d"

/-- The values gjson returns on the documents used in the worked examples: the string
members `id`, `a` and `b` of a few small JSON objects, and the empty string elsewhere. -/
def exampleGet (body : Bytes) (path : Str) : Str :=
  if body = str "\x7b\"id\":\"abc\"\x7d" ∧ path = str "id" then str "abc"
  else if body = str "\x7b\"id\":\"xyz\"\x7d" ∧ path = str "id" then str "xyz"
  else if body = str "\x7b\"id\":\"abc\",\"n\":1\x7d" ∧ path = str "id" then str "abc"
  else if body = str "\x7b\"a\":\"x,y\",\"b\":\"z\"\x7d" ∧ path = str "a" then str "x,y"
  else if body = str "\x7b\"a\":\"x,y\",\"b\":\"z\"\x7d" ∧ path = str "b" then str "z"
  else if body = str "\x7b\"a\":\"x\",\"b\":\"y,z\"\x7d" ∧ path = str "a" then str "x"
  else if body = str "\x7b\"a\":\"x\",\"b\":\"y,z\"\x7d" ∧ path = str "b" then str "y,z"
  else if body = longDoc 97 ∧ path = str "id" then List.replicate 201 97
  else if body = longDoc 98 ∧ path = str "id" then List.replicate 201 98
  else []

/-- A POST request to `/endpoint` carrying `body`. -/
def postEndpoint (body : Bytes) : Request :=
  { Method := str "POST", Path := str "/endpoint", RequestURI := str "/endpoint",
    Body := .stream body }

/-- A pool holding one returned buffer. -/
def poolOfOne : byteBufferPool := { contents := fun _ => [], next := 1, pool := [0] }

/-- A GET request for `/items/42` with an empty body. -/
def getItems42 : Request :=
  { Method := str "GET", Path := str "/items/42", RequestURI := str "/items/42",
    Body := .stream [] }

/-- An in-memory store at time 0 holding a 200 response with body `ok` under the key of
`getItems42` with no field paths, stored with the default expiration. -/
def storeWithItems42 : InMemoryStore :=
  { Cache := (Cache.New 0 0).Set (str "echo-middleware.page.cache:/items/42?")
      (.response { status := 200, header := [], data := str "ok" }) DefaultExpiration }

/-- A next stage that does nothing and returns nil. -/
def nextNoop {σ ω : Type} : HandlerFunc σ ω := fun c => .ok (c, none)

/-- What an exchange leaves behind, as far as the examples look: the keys of the installed
`cachedWriter`s, the request body, and the status and body sent on the connection. -/
def observe {σ : Type} (r : Except Panic (Context σ Conn × Option Error)) :
    Option (List Str × Body × Int × Bytes) :=
  match r with
  | .error _ => none
  | .ok (c, _) => some (c.response.Writer.map (fun w => w.key), c.request.Body, c.conn.status,
      c.conn.body)

/-- What the store of an exchange holds under `key` afterwards. -/
def storedUnder (r : Except Panic (Context InMemoryStore Conn × Option Error)) (key : Str) :
    Option Value :=
  match r with
  | .error _ => none
  | .ok (c, _) => c.store.Cache.Get key

/-- A store whose backend is unreachable: every operation returns an error. -/
def brokenStore : Store Unit where
  Get := fun _ value s => .ok (s, value, some (.other (str "connection refused")))
  Set := fun _ _ _ s => .ok (s, some (.other (str "connection refused")))
  Add := fun _ _ _ s => .ok (s, some (.other (str "connection refused")))
  Replace := fun _ _ _ s => .ok (s, some (.other (str "connection refused")))
  Delete := fun _ s => .ok (s, some (.other (str "connection refused")))
  Increment := fun _ _ s => .ok (s, 0, some (.other (str "connection refused")))
  Decrement := fun _ _ s => .ok (s, 0, some (.other (str "connection refused")))
  Flush := fun s => .ok (s, some (.other (str "connection refused")))

/-- The store at time 0 after `Set("n", 10, StayForever)` with the Go constant 10, an
`int`. -/
def storeN10 : InMemoryStore :=
  { Cache := (Cache.New 0 0).Set (str "n") (.integer .int 10) StayForever }

/-- The store at time 0 that holds the `int` 7 under the page key of `getItems42`. -/
def storeWithInt : InMemoryStore :=
  { Cache := (Cache.New 0 0).Set (str "echo-middleware.page.cache:/items/42?")
      (.integer .int 7) StayForever }

/-- The store at time 0 that holds a nil value under the page key of `getItems42`. -/
def storeWithNil : InMemoryStore :=
  { Cache := (Cache.New 0 0).Set (str "echo-middleware.page.cache:/items/42?") .nil
      StayForever }

/-- An encoder that refuses every value. -/
def gobRefuse (_ : Value) : Bytes × Option Error := ([], some (.other (str "gob: refused")))

/-- A decoder that refuses every input. -/
def gobRefuseDecode (_ : Bytes) (ptr : Target) : Except Panic (Target × Option Error) :=
  .ok (ptr, some (.other (str "gob: refused")))

/-! ## The buffer pool -/

theorem wf_empty : byteBufferPool.empty.wf := by
  simp [byteBufferPool.wf, byteBufferPool.empty]

/-- What `Get` guarantees on a well-formed pool: the buffer is empty, allocated, no
longer pooled, and the pool stays well formed. -/
theorem Get_spec (p : byteBufferPool) (h : p.wf) :
    p.Get.2.contents p.Get.1 = [] ∧ p.Get.1 ∉ p.Get.2.pool ∧ p.Get.1 < p.Get.2.next ∧
      p.Get.2.wf := by
  obtain ⟨hnd, hall⟩ := h
  unfold byteBufferPool.Get
  cases hp : p.pool with
  | nil => simp [byteBufferPool.wf]
  | cons a rest =>
    rw [hp] at hnd hall
    have ha := hall a (by simp)
    rw [List.nodup_cons] at hnd
    refine ⟨ha.2, hnd.1, ha.1, hnd.2, ?_⟩
    intro b hb
    exact hall b (by simp [hb])

/-- Writing to a buffer that is not pooled keeps the pool well formed. -/
theorem WriteString_wf (p : byteBufferPool) (a : Nat) (s : Str) (h : p.wf) (ha : a ∉ p.pool) :
    (p.WriteString a s).wf := by
  obtain ⟨hnd, hall⟩ := h
  refine ⟨hnd, ?_⟩
  intro b hb
  have hne : b ≠ a := fun e => ha (e ▸ hb)
  have := hall b hb
  simpa [byteBufferPool.WriteString, Function.update, hne] using this

/-- Returning an allocated buffer that is not pooled keeps the pool well formed. -/
theorem Put_wf (p : byteBufferPool) (a : Nat) (h : p.wf) (ha : a ∉ p.pool) (hlt : a < p.next) :
    (p.Put a).wf := by
  obtain ⟨hnd, hall⟩ := h
  refine ⟨List.nodup_cons.mpr ⟨ha, hnd⟩, ?_⟩
  intro b hb
  simp only [byteBufferPool.Put, List.mem_cons] at hb
  rcases hb with rfl | hb
  · simp [byteBufferPool.Put, hlt]
  · have hne : b ≠ a := fun e => ha (e ▸ hb)
    have := hall b hb
    simpa [byteBufferPool.Put, Function.update, hne] using this

theorem wf_poolOfOne : poolOfOne.wf := by
  simp [byteBufferPool.wf, poolOfOne]

theorem WriteString_contents (p : byteBufferPool) (a : Nat) (s : Str) :
    (p.WriteString a s).contents a = p.contents a ++ s := by
  simp [byteBufferPool.WriteString]

/-! ## Key derivation -/

set_option maxRecDepth 100000

theorem sha1Sum_length (msg : Bytes) : (sha1Sum msg).length = 20 := by
  simp [sha1Sum, beBytes]

/-- The digest of `abc`, as published with the algorithm. -/
theorem sha1Sum_abc :
    sha1Sum (str "abc") =
      [0xa9, 0x99, 0x3e, 0x36, 0x47, 0x06, 0x81, 0x6a, 0xba, 0x3e, 0x25, 0x71, 0x78, 0x50, 0xc2,
        0x6c, 0x9c, 0xd0, 0xd8, 0x9d] := by decide

/-- A URL with reserved bytes and a space, escaped. -/
theorem QueryEscape_example :
    QueryEscape (str "/items/42?a=b c&d=~x_y-z.") =
      str "%2Fitems%2F42%3Fa%3Db+c%26d%3D~x_y-z." := by
  decide

/-- The key `urlEscape` builds, on a well-formed pool. -/
theorem urlEscape_key (pre u : Str) (p : byteBufferPool) (h : p.wf) :
    (urlEscape pre u p).1 =
      pre ++ str ":" ++ (if (QueryEscape u).length > 200 then sha1Sum u else QueryEscape u) := by
  obtain ⟨h0, -, -, -⟩ := Get_spec p h
  simp [urlEscape, byteBufferPool.WriteString, byteBufferPool.String, Function.update, h0]

/-- The key `jsonPostKey` builds for a request whose body stream yields `B`, on a
well-formed pool. -/
theorem jsonPostKey_key (gjsonGet : Bytes → Str → Str) (pre : Str) (request : Request)
    (keys : List Str) (p : byteBufferPool) (B : Bytes) (h : p.wf)
    (hB : request.Body = .stream B) :
    (jsonPostKey gjsonGet pre request keys p).1 =
      pre ++ str ":" ++ request.RequestURI ++ str "?" ++
        (if (stringsJoin (keys.map (gjsonGet B)) (str ",")).length > 200
          then sha1Sum request.RequestURI
          else stringsJoin (keys.map (gjsonGet B)) (str ",")) := by
  by_cases hk : keys.length > 0
  · obtain ⟨-, h1, -, h3⟩ := Get_spec p h
    have h4 := WriteString_wf p.Get.2 p.Get.1 B h3 h1
    obtain ⟨g0, -, -, -⟩ := Get_spec _ h4
    simp [jsonPostKey, hk, teeReadAll, Body.ReadAll, hB, byteBufferPool.String,
      WriteString_contents, g0]
  · obtain ⟨g0, -, -, -⟩ := Get_spec p h
    have hk0 : keys = [] := by
      cases keys with
      | nil => rfl
      | cons a l => simp at hk
    simp [jsonPostKey, hk0, byteBufferPool.String, WriteString_contents, g0, stringsJoin]

/-- What `Get` leaves alone: it pools nothing new, never lowers the allocation mark, and
hands out either a pooled buffer or the next fresh address. -/
theorem Get_frame (p : byteBufferPool) :
    (∀ a ∈ p.Get.2.pool, a ∈ p.pool) ∧ p.next ≤ p.Get.2.next ∧
      (p.Get.1 ∈ p.pool ∨ p.Get.1 = p.next) := by
  unfold byteBufferPool.Get
  cases hp : p.pool with
  | nil => simp
  | cons a rest =>
    simp only [List.mem_cons, true_or, or_true, and_true, le_refl]
    exact fun b hb => Or.inr hb

theorem WriteString_pool (p : byteBufferPool) (a : Nat) (s : Str) :
    (p.WriteString a s).pool = p.pool ∧ (p.WriteString a s).next = p.next := ⟨rfl, rfl⟩

/-- `urlEscape` keeps the pool well formed. -/
theorem urlEscape_wf (pre u : Str) (p : byteBufferPool) (h : p.wf) : (urlEscape pre u p).2.wf := by
  obtain ⟨-, h1, h2, h3⟩ := Get_spec p h
  simp only [urlEscape]
  apply Put_wf
  · exact WriteString_wf _ _ _ (WriteString_wf _ _ _ (WriteString_wf _ _ _ h3 h1) h1) h1
  · exact h1
  · exact h2

/-- `jsonPostKey` keeps the pool well formed. -/
theorem jsonPostKey_wf (gjsonGet : Bytes → Str → Str) (pre : Str) (request : Request)
    (keys : List Str) (p : byteBufferPool) (B : Bytes) (h : p.wf)
    (hB : request.Body = .stream B) : (jsonPostKey gjsonGet pre request keys p).2.2.wf := by
  by_cases hk : keys.length > 0
  · obtain ⟨-, h1, h2, h3⟩ := Get_spec p h
    have h4 := WriteString_wf p.Get.2 p.Get.1 B h3 h1
    obtain ⟨-, g1, g2, g3⟩ := Get_spec _ h4
    obtain ⟨f1, f2, f3⟩ := Get_frame (p.Get.2.WriteString p.Get.1 B)
    have hne : p.Get.1 ≠ (p.Get.2.WriteString p.Get.1 B).Get.1 := by
      intro e
      rcases f3 with f3 | f3
      · rw [← e] at f3
        exact h1 f3
      · rw [← e] at f3
        have : p.Get.1 < p.Get.1 := by
          conv => rhs; rw [f3]
          exact h2
        exact absurd this (lt_irrefl _)
    have hnot : p.Get.1 ∉ (p.Get.2.WriteString p.Get.1 B).Get.2.pool := fun m => h1 (f1 _ m)
    have hlt : p.Get.1 < (p.Get.2.WriteString p.Get.1 B).Get.2.next := lt_of_lt_of_le h2 f2
    simp only [jsonPostKey, hk, if_true, teeReadAll, Body.ReadAll, hB, List.foldl]
    apply Put_wf
    · apply Put_wf
      · exact WriteString_wf _ _ _ (WriteString_wf _ _ _ (WriteString_wf _ _ _
          (WriteString_wf _ _ _ (WriteString_wf _ _ _ g3 g1) g1) g1) g1) g1
      · exact g1
      · exact g2
    · simp only [byteBufferPool.Put, List.mem_cons, not_or]
      exact ⟨hne, hnot⟩
    · exact hlt
  · obtain ⟨-, h1, h2, h3⟩ := Get_spec p h
    simp only [jsonPostKey, hk, if_false, List.foldl]
    apply Put_wf
    · exact WriteString_wf _ _ _ (WriteString_wf _ _ _ (WriteString_wf _ _ _
        (WriteString_wf _ _ _ (WriteString_wf _ _ _ h3 h1) h1) h1) h1) h1
    · exact h1
    · exact h2

theorem append_comma_inj (a b x y : List Nat) (ha : 44 ∉ a) (hb : 44 ∉ b)
    (h : a ++ 44 :: x = b ++ 44 :: y) : a = b ∧ x = y := by
  induction a generalizing b with
  | nil =>
    cases b with
    | nil => simpa using h
    | cons c b =>
      simp only [List.nil_append, List.cons_append, List.cons.injEq] at h
      exact absurd h.1.symm (by intro e; exact hb (by simp [e]))
  | cons c a ih =>
    cases b with
    | nil =>
      simp only [List.nil_append, List.cons_append, List.cons.injEq] at h
      exact absurd h.1 (by intro e; exact ha (by simp [e]))
    | cons d b =>
      simp only [List.cons_append, List.cons.injEq] at h
      have := ih b (fun m => ha (List.mem_cons_of_mem _ m)) (fun m => hb (List.mem_cons_of_mem _ m)) h.2
      exact ⟨by rw [h.1, this.1], this.2⟩

theorem stringsJoin_cons_cons (a b : Str) (rest : List Str) (sep : Str) :
    stringsJoin (a :: b :: rest) sep = a ++ sep ++ stringsJoin (b :: rest) sep := rfl

/-- Joining with commas loses nothing when no element contains a comma. -/
theorem stringsJoin_comma_inj (l1 l2 : List Str) (hlen : l1.length = l2.length)
    (h1 : ∀ v ∈ l1, 44 ∉ v) (h2 : ∀ v ∈ l2, 44 ∉ v)
    (h : stringsJoin l1 (str ",") = stringsJoin l2 (str ",")) : l1 = l2 := by
  induction l1 generalizing l2 with
  | nil =>
    cases l2 with
    | nil => rfl
    | cons b l2 => simp at hlen
  | cons a l1 ih =>
    cases l2 with
    | nil => simp at hlen
    | cons b l2 =>
      cases l1 with
      | nil =>
        cases l2 with
        | nil => simpa [stringsJoin] using h
        | cons b2 l2 => simp at hlen
      | cons a2 l1 =>
        cases l2 with
        | nil => simp at hlen
        | cons b2 l2 =>
          rw [stringsJoin_cons_cons, stringsJoin_cons_cons] at h
          have hc : str "," = [44] := by decide
          rw [hc] at h
          simp only [List.append_assoc, List.singleton_append] at h
          have hab := append_comma_inj a b _ _ (h1 a (by simp)) (h2 b (by simp)) h
          have hrest := ih (b2 :: l2) (by simpa using hlen)
            (fun v hv => h1 v (List.mem_cons_of_mem _ hv))
            (fun v hv => h2 v (List.mem_cons_of_mem _ hv)) (by rw [hc]; exact hab.2)
          rw [hab.1, hrest]

/-! ## Claims on key derivation -/

/-- Claim C5, as the code behaves: whenever the field-path list is not empty, the body
that `jsonPostKey` leaves in the request reads as the empty sequence once the function
has returned, whatever the original body was. The buffer the new body reads from is the
one the deferred `Put` has reset and handed back to the pool. -/
theorem jsonPostKey_body_drained (gjsonGet : Bytes → Str → Str) (pre : Str) (request : Request)
    (keys : List Str) (p : byteBufferPool) (hk : keys ≠ []) :
    ((jsonPostKey gjsonGet pre request keys p).2.1.Body.ReadAll
      (jsonPostKey gjsonGet pre request keys p).2.2).1 = [] := by
  have hk0 : keys.length > 0 := by
    cases keys with
    | nil => exact absurd rfl hk
    | cons a l => simp
  simp [jsonPostKey, hk0, Body.ReadAll, byteBufferPool.Put]

/-- Claim C5 at the failing input: a POST to `/endpoint` whose body is the 12 bytes of the
object with member `id` equal to `abc`, and the field path `id`. Before the call the body
reads as those bytes; after the call it reads as nothing. -/
theorem jsonPostKey_body_not_restored :
    [str "id"] ≠ [] ∧
    ((postEndpoint (str "\x7b\"id\":\"abc\"\x7d")).Body.ReadAll byteBufferPool.empty).1 =
      str "\x7b\"id\":\"abc\"\x7d" ∧
    ((jsonPostKey exampleGet PageCachePrefix (postEndpoint (str "\x7b\"id\":\"abc\"\x7d"))
        [str "id"] byteBufferPool.empty).2.1.Body.ReadAll
      (jsonPostKey exampleGet PageCachePrefix (postEndpoint (str "\x7b\"id\":\"abc\"\x7d"))
        [str "id"] byteBufferPool.empty).2.2).1 = [] :=
  ⟨by decide, by decide,
    jsonPostKey_body_drained exampleGet PageCachePrefix
      (postEndpoint (str "\x7b\"id\":\"abc\"\x7d")) [str "id"] byteBufferPool.empty (by decide)⟩

/-- Claim C8 as stated fails in two ways. With field paths `a` and `b`, the bodies with
values `x,y` and `z`, and with values `x` and `y,z`, yield different value lists and the
same key. With field path `id`, two bodies whose values are 201 bytes long and different
yield the same key, the digest of the URI replacing both joins. -/
theorem jsonPostKey_values_differ_keys_equal :
    ([str "a", str "b"].map (exampleGet (str "\x7b\"a\":\"x,y\",\"b\":\"z\"\x7d")) ≠
        [str "a", str "b"].map (exampleGet (str "\x7b\"a\":\"x\",\"b\":\"y,z\"\x7d")) ∧
      (jsonPostKey exampleGet (str "prefix")
        (postEndpoint (str "\x7b\"a\":\"x,y\",\"b\":\"z\"\x7d")) [str "a", str "b"]
        byteBufferPool.empty).1 =
      (jsonPostKey exampleGet (str "prefix")
        (postEndpoint (str "\x7b\"a\":\"x\",\"b\":\"y,z\"\x7d")) [str "a", str "b"]
        byteBufferPool.empty).1) ∧
    ([str "id"].map (exampleGet (longDoc 97)) ≠ [str "id"].map (exampleGet (longDoc 98)) ∧
      (jsonPostKey exampleGet (str "prefix") (postEndpoint (longDoc 97)) [str "id"]
        byteBufferPool.empty).1 =
      (jsonPostKey exampleGet (str "prefix") (postEndpoint (longDoc 98)) [str "id"]
        byteBufferPool.empty).1) := by
  refine ⟨⟨by decide, by decide⟩, ⟨by decide, ?_⟩⟩
  rw [jsonPostKey_key exampleGet _ _ _ _ (longDoc 97) wf_empty rfl,
    jsonPostKey_key exampleGet _ _ _ _ (longDoc 98) wf_empty rfl]
  have h1 : (stringsJoin ([str "id"].map (exampleGet (longDoc 97))) (str ",")).length = 201 := by
    decide
  have h2 : (stringsJoin ([str "id"].map (exampleGet (longDoc 98))) (str ",")).length = 201 := by
    decide
  simp only [h1, h2]
  rfl

/-- Claim C8, amended: for every prefix, request URI and list of field paths, if the
comma-joins of the values extracted from two bodies differ and are both at most 200 bytes
long, then `jsonPostKey` returns different keys; and the joins do differ whenever the two
value lists differ and no extracted value contains a comma (byte 44). -/
theorem jsonPostKey_distinct (gjsonGet : Bytes → Str → Str) (pre : Str) (keys : List Str)
    (r1 r2 : Request) (B1 B2 : Bytes) (p1 p2 : byteBufferPool) (h1 : p1.wf) (h2 : p2.wf)
    (huri : r1.RequestURI = r2.RequestURI)
    (hB1 : r1.Body = .stream B1) (hB2 : r2.Body = .stream B2)
    (hlen1 : (stringsJoin (keys.map (gjsonGet B1)) (str ",")).length ≤ 200)
    (hlen2 : (stringsJoin (keys.map (gjsonGet B2)) (str ",")).length ≤ 200) :
    (stringsJoin (keys.map (gjsonGet B1)) (str ",") ≠
        stringsJoin (keys.map (gjsonGet B2)) (str ",") →
      (jsonPostKey gjsonGet pre r1 keys p1).1 ≠ (jsonPostKey gjsonGet pre r2 keys p2).1) ∧
    ((∀ v ∈ keys.map (gjsonGet B1), 44 ∉ v) → (∀ v ∈ keys.map (gjsonGet B2), 44 ∉ v) →
      keys.map (gjsonGet B1) ≠ keys.map (gjsonGet B2) →
      (jsonPostKey gjsonGet pre r1 keys p1).1 ≠ (jsonPostKey gjsonGet pre r2 keys p2).1) := by
  have key : stringsJoin (keys.map (gjsonGet B1)) (str ",") ≠
        stringsJoin (keys.map (gjsonGet B2)) (str ",") →
      (jsonPostKey gjsonGet pre r1 keys p1).1 ≠ (jsonPostKey gjsonGet pre r2 keys p2).1 := by
    intro hne heq
    rw [jsonPostKey_key gjsonGet pre r1 keys p1 B1 h1 hB1,
      jsonPostKey_key gjsonGet pre r2 keys p2 B2 h2 hB2, huri,
      if_neg (Nat.not_lt.mpr hlen1), if_neg (Nat.not_lt.mpr hlen2)] at heq
    exact hne (List.append_cancel_left heq)
  refine ⟨key, ?_⟩
  intro hc1 hc2 hne
  apply key
  intro hj
  exact hne (stringsJoin_comma_inj _ _ (by simp) hc1 hc2 hj)

/-- Claim C8, amended, on scenario B: field path `id`, bodies with `id` equal to `abc`
and to `xyz` give different keys. -/
theorem jsonPostKey_distinct_witness :
    [str "id"].map (exampleGet (str "\x7b\"id\":\"abc\"\x7d")) ≠
        [str "id"].map (exampleGet (str "\x7b\"id\":\"xyz\"\x7d")) ∧
      (jsonPostKey exampleGet (str "prefix") (postEndpoint (str "\x7b\"id\":\"abc\"\x7d"))
        [str "id"] byteBufferPool.empty).1 ≠
      (jsonPostKey exampleGet (str "prefix") (postEndpoint (str "\x7b\"id\":\"xyz\"\x7d"))
        [str "id"] byteBufferPool.empty).1 :=
  ⟨by decide,
    (jsonPostKey_distinct exampleGet (str "prefix") [str "id"]
      (postEndpoint (str "\x7b\"id\":\"abc\"\x7d")) (postEndpoint (str "\x7b\"id\":\"xyz\"\x7d"))
      (str "\x7b\"id\":\"abc\"\x7d") (str "\x7b\"id\":\"xyz\"\x7d")
      byteBufferPool.empty byteBufferPool.empty wf_empty wf_empty rfl rfl rfl
      (by decide) (by decide)).2 (by decide) (by decide) (by decide)⟩

/-- Claim C9: for every prefix, request URI, field-path list and body, on a well-formed
buffer pool `jsonPostKey` returns the prefix, a colon, the URI, a question mark and a
component: the comma-join of the extracted values in field-path order when that join is
at most 200 bytes long, and otherwise the SHA-1 digest of the URI, which is 20 bytes
long. With an empty field list the component is empty. -/
theorem jsonPostKey_format (gjsonGet : Bytes → Str → Str) (pre : Str) (request : Request)
    (keys : List Str) (p : byteBufferPool) (B : Bytes) (h : p.wf)
    (hB : request.Body = .stream B) :
    (jsonPostKey gjsonGet pre request keys p).1 =
        pre ++ str ":" ++ request.RequestURI ++ str "?" ++
          (if (stringsJoin (keys.map (gjsonGet B)) (str ",")).length ≤ 200
            then stringsJoin (keys.map (gjsonGet B)) (str ",")
            else sha1Sum request.RequestURI) ∧
      (sha1Sum request.RequestURI).length = 20 ∧
      (keys = [] → (jsonPostKey gjsonGet pre request keys p).1 =
        pre ++ str ":" ++ request.RequestURI ++ str "?") := by
  have hkey := jsonPostKey_key gjsonGet pre request keys p B h hB
  refine ⟨?_, sha1Sum_length _, ?_⟩
  · rw [hkey]
    by_cases hl : (stringsJoin (keys.map (gjsonGet B)) (str ",")).length ≤ 200
    · simp [hl, Nat.not_lt.mpr hl]
    · simp [hl, Nat.lt_of_not_le hl]
  · intro hk
    rw [hkey, hk]
    simp [stringsJoin]

/-- Claim C9 on scenario B: prefix `prefix`, URI `/endpoint`, field path `id` and a body
with `id` equal to `abc` give the key `prefix:/endpoint?abc`. -/
theorem jsonPostKey_format_witness :
    byteBufferPool.empty.wf ∧
      (jsonPostKey exampleGet (str "prefix") (postEndpoint (str "\x7b\"id\":\"abc\"\x7d"))
        [str "id"] byteBufferPool.empty).1 = str "prefix:/endpoint?abc" :=
  ⟨wf_empty, (jsonPostKey_format exampleGet (str "prefix")
    (postEndpoint (str "\x7b\"id\":\"abc\"\x7d")) [str "id"] byteBufferPool.empty
    (str "\x7b\"id\":\"abc\"\x7d") wf_empty rfl).1.trans (by decide)⟩

/-- Claim C10: key derivation is deterministic. For every prefix and URL, `urlEscape`
returns the same key from any two well-formed states of the buffer pool; and for every
prefix and field-path list, two requests with the same request URI whose bodies yield the
same extracted values get the same key from `jsonPostKey`, whatever else the bodies
contain and whatever the state of the pool. -/
theorem key_deterministic :
    (∀ (pre u : Str) (p1 p2 : byteBufferPool), p1.wf → p2.wf →
      (urlEscape pre u p1).1 = (urlEscape pre u p2).1) ∧
    (∀ (gjsonGet : Bytes → Str → Str) (pre : Str) (keys : List Str) (r1 r2 : Request)
      (B1 B2 : Bytes) (p1 p2 : byteBufferPool), p1.wf → p2.wf →
      r1.RequestURI = r2.RequestURI → r1.Body = .stream B1 → r2.Body = .stream B2 →
      keys.map (gjsonGet B1) = keys.map (gjsonGet B2) →
      (jsonPostKey gjsonGet pre r1 keys p1).1 = (jsonPostKey gjsonGet pre r2 keys p2).1) := by
  constructor
  · intro pre u p1 p2 h1 h2
    rw [urlEscape_key pre u p1 h1, urlEscape_key pre u p2 h2]
  · intro gjsonGet pre keys r1 r2 B1 B2 p1 p2 h1 h2 huri hB1 hB2 hv
    rw [jsonPostKey_key gjsonGet pre r1 keys p1 B1 h1 hB1,
      jsonPostKey_key gjsonGet pre r2 keys p2 B2 h2 hB2, huri, hv]

/-- Claim C10 on concrete inputs: the URL `/items/42` from an empty pool and from a pool
holding a buffer; and two different bodies with the same `id`. -/
theorem key_deterministic_witness :
    (urlEscape (str "p") (str "/items/42") byteBufferPool.empty).1 =
        (urlEscape (str "p") (str "/items/42") poolOfOne).1 ∧
      str "\x7b\"id\":\"abc\"\x7d" ≠ str "\x7b\"id\":\"abc\",\"n\":1\x7d" ∧
      (jsonPostKey exampleGet (str "prefix") (postEndpoint (str "\x7b\"id\":\"abc\"\x7d"))
        [str "id"] byteBufferPool.empty).1 =
      (jsonPostKey exampleGet (str "prefix")
        (postEndpoint (str "\x7b\"id\":\"abc\",\"n\":1\x7d")) [str "id"] poolOfOne).1 :=
  ⟨key_deterministic.1 (str "p") (str "/items/42") byteBufferPool.empty poolOfOne wf_empty
      wf_poolOfOne,
    by decide,
    key_deterministic.2 exampleGet (str "prefix") [str "id"] _ _ _ _ byteBufferPool.empty
      poolOfOne wf_empty wf_poolOfOne rfl rfl rfl (by decide)⟩

/-! ## The intercepting writer and the middleware -/

/-- With a recorded status other than 200, `Write` is the embedded `Write`. -/
theorem Write_of_status_ne {σ ω : Type} (w : cachedWriter σ)
    (embedded : Bytes → σ × ω → Except Panic ((σ × ω) × Int × Option Error))
    (header : ω → Header) (data : Bytes) (s : σ × ω) (h : w.status ≠ 200) :
    w.Write embedded header data s = embedded data s := by
  unfold cachedWriter.Write
  cases hE : embedded data s with
  | error e => rfl
  | ok r =>
    obtain ⟨s1, ret, err⟩ := r
    simp [h]

/-- The handler on a lookup that returns an error. -/
theorem JSONPostPageCache_miss {σ ω : Type} (gjsonGet : Bytes → Str → Str)
    (config : Config σ ω) (keys : List Str) (next : HandlerFunc σ ω) (c : Context σ ω)
    (S : Store σ) (st : σ) (t : Target) (e : Error) (hS : c.cacheStore = some S)
    (hGet : S.Get (jsonPostKey gjsonGet PageCachePrefix c.request keys c.pool).1
      (.ptr .response (.response { status := 0, header := [], data := [] })) c.store =
        .ok (st, t, some e)) :
    JSONPostPageCache gjsonGet config keys next c =
      next { c with
        request := (jsonPostKey gjsonGet PageCachePrefix c.request keys c.pool).2.1
        pool := (jsonPostKey gjsonGet PageCachePrefix c.request keys c.pool).2.2
        store := st
        response := { c.response with
          Writer := newCachedWriter S (if config.Expire = 0 then DefaultExpiration else config.Expire)
            (jsonPostKey gjsonGet PageCachePrefix c.request keys c.pool).1 :: c.response.Writer } } := by
  simp only [JSONPostPageCache, hS, hGet]
  congr 3
  by_cases h0 : config.Expire = 0
  · by_cases h1 : config.Skipper.isNone <;> simp [h0, h1, DefaultCacheConfig]
  · by_cases h1 : config.Skipper.isNone <;> simp [h0, h1, DefaultCacheConfig]

/-- Claim C1: only status-200 responses are persisted. For every `cachedWriter`, store
state, connection and data: when the recorded status is not 200, `Write` returns without
panic and leaves the store state unchanged; this covers the status recorded by
`WriteHeader(code)` for every code other than 200 (500 in scenario C) and the status 0 of
a writer on which `WriteHeader` was never called. And whenever `Write` returns with a
store state other than the one it started from, the recorded status is 200 and that state
is the result of `store.Set` under the key of the writer, with the expiry of the writer,
of a `responseCache` whose status is 200 and whose data is the written data. -/
theorem Write_persists_only_200 {σ ω : Type} (w : cachedWriter σ) (base : ResponseWriter ω)
    (data : Bytes) (st : σ) (conn : ω) :
    (w.status ≠ 200 → ∃ conn1 n err,
      w.Write (baseWrite base) base.Header data (st, conn) = .ok ((st, conn1), n, err)) ∧
    (∀ code : Int, code ≠ 200 → ∃ conn1 n err,
      (w.WriteHeader (fun cd => base.WriteHeader cd conn) code).1.Write (baseWrite base)
        base.Header data (st, conn) = .ok ((st, conn1), n, err)) ∧
    (∃ conn1 n err,
      (newCachedWriter w.store w.expire w.key).Write (baseWrite base) base.Header data
        (st, conn) = .ok ((st, conn1), n, err)) ∧
    (∀ st1 conn1 n err,
      w.Write (baseWrite base) base.Header data (st, conn) = .ok ((st1, conn1), n, err) →
      st1 = st ∨ (w.status = 200 ∧ ∃ hdr,
        w.store.Set w.key (.response { status := 200, header := hdr, data := data }) w.expire st =
          .ok (st1, err))) := by
  refine ⟨?_, ?_, ?_, ?_⟩
  · intro h
    rw [Write_of_status_ne w _ _ _ _ h]
    exact ⟨_, _, _, rfl⟩
  · intro code h
    rw [Write_of_status_ne _ _ _ _ _ (by simpa [cachedWriter.WriteHeader] using h)]
    exact ⟨_, _, _, rfl⟩
  · rw [Write_of_status_ne _ _ _ _ _ (by simp [newCachedWriter])]
    exact ⟨_, _, _, rfl⟩
  · intro st1 conn1 n err h
    unfold cachedWriter.Write baseWrite at h
    simp only at h
    split at h
    · cases hS : w.store.Set w.key (.response { status := 200, header := base.Header (base.Write data conn).1, data := data }) w.expire st with
      | error e => simp [hS] at h
      | ok r =>
        rename_i hc
        simp only [hS] at h
        simp only [Except.ok.injEq, Prod.mk.injEq] at h
        right
        refine ⟨hc.2, base.Header (base.Write data conn).1, ?_⟩
        rw [hS, ← h.1.1, ← h.2.2]
    · simp only [Except.ok.injEq, Prod.mk.injEq] at h
      left
      exact h.1.1.symm

/-- Claim C1 on concrete inputs: a writer that recorded status 500 over an in-memory
store leaves that store as it was; and in scenario C, GET `/items/42` against an empty
store with a handler that responds with status 500 and body `boom`, the client receives
status 500 and `boom` and the store holds nothing under the derived key. -/
theorem Write_persists_only_200_witness :
    ((500 : Int) ≠ 200 ∧ ∃ conn1 n err,
      cachedWriter.Write
        { status := 500, written := true, store := inMemoryStore, expire := DefaultExpiration,
          key := str "k" }
        (baseWrite connWriter) connWriter.Header (str "boom")
        (NewInMemoryStore 0 0, Conn.fresh) = .ok ((NewInMemoryStore 0 0, conn1), n, err)) ∧
    observe (JSONPostPageCache exampleGet DefaultCacheConfig [] (respondWith 500 [str "boom"])
        (Context.start inMemoryStore (NewInMemoryStore 0 0) getItems42)) =
      some ([str "echo-middleware.page.cache:/items/42?"], .stream [], 500, str "boom") ∧
    storedUnder (JSONPostPageCache exampleGet DefaultCacheConfig [] (respondWith 500 [str "boom"])
        (Context.start inMemoryStore (NewInMemoryStore 0 0) getItems42))
      (str "echo-middleware.page.cache:/items/42?") = none :=
  ⟨⟨by decide,
    (Write_persists_only_200
      { status := 500, written := true, store := inMemoryStore, expire := DefaultExpiration,
        key := str "k" }
      connWriter (str "boom") (NewInMemoryStore 0 0) Conn.fresh).1 (by decide)⟩,
    by decide, by decide⟩

/-- Claim C4, as the code behaves: the handler never consults `config.Skipper`. Two
configurations that differ only in their `Skipper` give the same handler; and with a
`Skipper` that returns true for every context, on a POST to `/endpoint` with field path
`id` against an empty store, the handler does not hand the context of the request to the
next stage as it is: the next stage finds a `cachedWriter` installed under the derived key
and the request body replaced by a pooled buffer, so the key was derived and looked up. -/
theorem skipper_never_consulted :
    (∀ (σ ω : Type) (gjsonGet : Bytes → Str → Str) (expire : Int)
      (skipper1 skipper2 : Option (Context σ ω → Bool)) (keys : List Str)
      (next : HandlerFunc σ ω) (c : Context σ ω),
      JSONPostPageCache gjsonGet { Expire := expire, Skipper := skipper1 } keys next c =
        JSONPostPageCache gjsonGet { Expire := expire, Skipper := skipper2 } keys next c) ∧
    observe (nextNoop (Context.start inMemoryStore (NewInMemoryStore 0 0)
        (postEndpoint (str "\x7b\"id\":\"abc\"\x7d")))) =
      some ([], .stream (str "\x7b\"id\":\"abc\"\x7d"), 0, []) ∧
    observe (JSONPostPageCache exampleGet { Expire := 0, Skipper := some (fun _ => true) }
        [str "id"] nextNoop (Context.start inMemoryStore (NewInMemoryStore 0 0)
          (postEndpoint (str "\x7b\"id\":\"abc\"\x7d")))) =
      some ([str "echo-middleware.page.cache:/endpoint?abc"], .buffer 0, 0, []) := by
  refine ⟨?_, by decide, by decide⟩
  intro σ ω gjsonGet expire skipper1 skipper2 keys next c
  by_cases h0 : expire = 0 <;> cases skipper1 <;> cases skipper2 <;>
    simp [JSONPostPageCache, h0, DefaultCacheConfig]

/-- Claim C6, as the code behaves. For every writer that recorded status 200 over a
server writer that accepts the data without error: when `store.Set` returns the error `e`,
`Write` returns the count of the server writer together with `e`. At the failing input, a
connection that accepts the two bytes `ok` and returns `(2, nil)` and a store whose `Set`
returns an error, `Write` returns 2 together with the error of the store, not nil. -/
theorem Write_returns_store_error :
    (∀ (σ ω : Type) (w : cachedWriter σ) (base : ResponseWriter ω) (data : Bytes) (st st1 : σ)
      (conn : ω) (e : Option Error),
      w.status = 200 → (base.Write data conn).2.2 = none →
      w.store.Set w.key
        (.response ⟨200, base.Header (base.Write data conn).1, data⟩) w.expire st =
          .ok (st1, e) →
      w.Write (baseWrite base) base.Header data (st, conn) =
        .ok ((st1, (base.Write data conn).1), (base.Write data conn).2.1, e)) ∧
    connWriter.Write (str "ok") Conn.fresh =
        ({ header := [], status := 200, body := str "ok" }, 2, none) ∧
    cachedWriter.Write
        { status := 200, written := true, store := brokenStore, expire := DefaultExpiration,
          key := str "k" }
        (baseWrite connWriter) connWriter.Header (str "ok") ((), Conn.fresh) =
      .ok (((), { header := [], status := 200, body := str "ok" }), 2,
        some (.other (str "connection refused"))) := by
  refine ⟨?_, rfl, rfl⟩
  intro σ ω w base data st st1 conn e hw hb hS
  simp [cachedWriter.Write, baseWrite, hw, hb, hS]

/-- Claim C7: lookup errors fail open. Whenever the context holds a store and `store.Get`
on the derived key returns an error, whichever it is, the result of the handler is the
result of the next stage, applied once to the context in which a new `cachedWriter` is the
outermost response writer; that writer carries the derived key, the store of the context,
the expiry of the configuration (the default of five seconds standing in for zero), status
0 and nothing written. -/
theorem lookup_error_fails_open {σ ω : Type} (gjsonGet : Bytes → Str → Str)
    (config : Config σ ω) (keys : List Str) (next : HandlerFunc σ ω) (c : Context σ ω)
    (S : Store σ) (st : σ) (t : Target) (e : Error) (hS : c.cacheStore = some S)
    (hGet : S.Get (jsonPostKey gjsonGet PageCachePrefix c.request keys c.pool).1
      (.ptr .response (.response { status := 0, header := [], data := [] })) c.store =
        .ok (st, t, some e)) :
    ∃ w : cachedWriter σ,
      JSONPostPageCache gjsonGet config keys next c =
        next { c with
          request := (jsonPostKey gjsonGet PageCachePrefix c.request keys c.pool).2.1
          pool := (jsonPostKey gjsonGet PageCachePrefix c.request keys c.pool).2.2
          store := st
          response := { c.response with Writer := w :: c.response.Writer } } ∧
      w.key = (jsonPostKey gjsonGet PageCachePrefix c.request keys c.pool).1 ∧
      w.store = S ∧
      w.expire = (if config.Expire = 0 then DefaultExpiration else config.Expire) ∧
      w.status = 0 ∧ w.written = false :=
  ⟨newCachedWriter S (if config.Expire = 0 then DefaultExpiration else config.Expire)
      (jsonPostKey gjsonGet PageCachePrefix c.request keys c.pool).1,
    JSONPostPageCache_miss gjsonGet config keys next c S st t e hS hGet, rfl, rfl, rfl, rfl, rfl⟩

/-- Claim C7 on a concrete input: GET `/items/42` against an empty in-memory store. The
lookup returns `ErrCacheMiss`, and the next stage runs with a writer installed that
carries the derived key and the default expiry. -/
theorem lookup_error_fails_open_witness :
    inMemoryStore.Get
        (jsonPostKey exampleGet PageCachePrefix getItems42 [] byteBufferPool.empty).1
        (.ptr .response (.response { status := 0, header := [], data := [] }))
        (NewInMemoryStore 0 0) =
      .ok (NewInMemoryStore 0 0, .ptr .response (.response { status := 0, header := [], data := [] }),
        some .ErrCacheMiss) ∧
    ∃ w : cachedWriter InMemoryStore,
      JSONPostPageCache exampleGet DefaultCacheConfig [] nextNoop
          (Context.start inMemoryStore (NewInMemoryStore 0 0) getItems42) =
        nextNoop { Context.start inMemoryStore (NewInMemoryStore 0 0) getItems42 with
          request := (jsonPostKey exampleGet PageCachePrefix getItems42 [] byteBufferPool.empty).2.1
          pool := (jsonPostKey exampleGet PageCachePrefix getItems42 [] byteBufferPool.empty).2.2
          store := NewInMemoryStore 0 0
          response := { (Context.start inMemoryStore (NewInMemoryStore 0 0) getItems42).response with
            Writer := w :: [] } } ∧
      w.key = str "echo-middleware.page.cache:/items/42?" ∧
      w.expire = 5000000000 :=
  ⟨rfl, by
    obtain ⟨w, h1, h2, -, h4, -, -⟩ := lookup_error_fails_open exampleGet DefaultCacheConfig []
      nextNoop (Context.start inMemoryStore (NewInMemoryStore 0 0) getItems42) inMemoryStore
      (NewInMemoryStore 0 0) (.ptr .response (.response { status := 0, header := [], data := [] }))
      .ErrCacheMiss rfl rfl
    exact ⟨w, h1, h2.trans (by decide), h4.trans (by decide)⟩⟩

/-! ## Claim on the URL key -/

/-- Claim C11: for every prefix and URL, on a well-formed buffer pool `urlEscape` returns
the prefix, a colon and a component: the query-escaped URL when that escaped form is at
most 200 bytes long, and otherwise the SHA-1 digest of the raw URL, which is 20 bytes
long. The key is therefore at most 201 bytes longer than the prefix. -/
theorem urlEscape_format (pre u : Str) (p : byteBufferPool) (h : p.wf) :
    (urlEscape pre u p).1 =
        pre ++ str ":" ++
          (if (QueryEscape u).length ≤ 200 then QueryEscape u else sha1Sum u) ∧
      (sha1Sum u).length = 20 ∧
      (urlEscape pre u p).1.length ≤ pre.length + 201 := by
  have hkey := urlEscape_key pre u p h
  have hcolon : (str ":").length = 1 := by decide
  by_cases hl : (QueryEscape u).length ≤ 200
  · rw [if_neg (Nat.not_lt.mpr hl)] at hkey
    refine ⟨by rw [hkey, if_pos hl], sha1Sum_length u, ?_⟩
    rw [hkey]
    simp only [List.length_append, hcolon]
    omega
  · rw [if_pos (Nat.lt_of_not_le hl)] at hkey
    refine ⟨by rw [hkey, if_neg hl], sha1Sum_length u, ?_⟩
    rw [hkey]
    simp only [List.length_append, hcolon, sha1Sum_length]
    omega

/-- Claim C11 on concrete inputs: the URL `/items/42` is escaped, and a URL of 201
letters `a`, whose escaped form is 201 bytes long, is replaced by its digest, giving a
key of 22 bytes under the prefix `p`. -/
theorem urlEscape_format_witness :
    byteBufferPool.empty.wf ∧
    (urlEscape (str "p") (str "/items/42") byteBufferPool.empty).1 = str "p:%2Fitems%2F42" ∧
    (QueryEscape (List.replicate 201 97)).length = 201 ∧
    (urlEscape (str "p") (List.replicate 201 97) byteBufferPool.empty).1 =
      str "p:" ++ sha1Sum (List.replicate 201 97) ∧
    (urlEscape (str "p") (List.replicate 201 97) byteBufferPool.empty).1.length ≤ 1 + 201 :=
  ⟨wf_empty,
    (urlEscape_format (str "p") (str "/items/42") byteBufferPool.empty wf_empty).1.trans
      (by decide),
    by decide,
    (urlEscape_format (str "p") (List.replicate 201 97) byteBufferPool.empty wf_empty).1.trans
      (by
        have h : ¬ (QueryEscape (List.replicate 201 97)).length ≤ 200 := by decide
        rw [if_neg h]
        rfl),
    (urlEscape_format (str "p") (List.replicate 201 97) byteBufferPool.empty wf_empty).2.2⟩

/-! ## The in-memory store -/

theorem HasSuffix_iff (s suffix : Str) : HasSuffix s suffix = true ↔ suffix <:+ s := by
  simp [HasSuffix]

/-- A string ends with the last byte of any non-empty suffix it has. -/
theorem HasSuffix_getLast (s suffix : Str) (h : HasSuffix s suffix = true) (hne : suffix ≠ []) :
    s.getLast? = suffix.getLast? := by
  obtain ⟨t, rfl⟩ := (HasSuffix_iff s suffix).mp h
  cases hs : suffix.getLast? with
  | none => exact absurd (List.getLast?_eq_none_iff.mp hs) hne
  | some a => simp [hs]

theorem HasSuffix_append (t suffix : Str) : HasSuffix (t ++ suffix) suffix = true :=
  (HasSuffix_iff _ _).mpr (List.suffix_append t suffix)

/-- The message go-cache gives for `Add` on a present key is translated to `ErrNotStored`,
whatever the key. -/
theorem covert_already_exists (k : Str) :
    covertInMemCacheError (some (.other (str "Item " ++ k ++ str " already exists"))) =
      some .ErrNotStored := by
  have h1 : HasSuffix (str "Item " ++ k ++ str " already exists") (str "already exists") = true := by
    have : str " already exists" = str " " ++ str "already exists" := by decide
    rw [this, ← List.append_assoc]
    exact HasSuffix_append _ _
  have h2 : HasSuffix (str "Item " ++ k ++ str " already exists") (str "doesn't exist") = false := by
    cases h : HasSuffix (str "Item " ++ k ++ str " already exists") (str "doesn't exist") with
    | false => rfl
    | true =>
      have hl := HasSuffix_getLast _ _ h (by decide)
      have hr := HasSuffix_getLast _ _ h1 (by decide)
      rw [hr] at hl
      exact absurd hl (by decide)
  simp only [covertInMemCacheError, Error.Error]
  rw [if_neg (by rw [h2]; decide), if_pos h1]

/-- The messages go-cache gives for `Increment` and `Decrement` on an absent key are
translated to `ErrCacheMiss`, whatever the key. -/
theorem covert_not_found (t : Str) :
    covertInMemCacheError (some (.other (t ++ str "not found"))) = some .ErrCacheMiss := by
  have h1 : HasSuffix (t ++ str "not found") (str "not found") = true := HasSuffix_append _ _
  have h2 : HasSuffix (t ++ str "not found") (str "doesn't exist") = false := by
    cases h : HasSuffix (t ++ str "not found") (str "doesn't exist") with
    | false => rfl
    | true =>
      have hl := HasSuffix_getLast _ _ h (by decide)
      have hr := HasSuffix_getLast _ _ h1 (by decide)
      rw [hr] at hl
      exact absurd hl (by decide)
  have h3 : HasSuffix (t ++ str "not found") (str "already exists") = false := by
    cases h : HasSuffix (t ++ str "not found") (str "already exists") with
    | false => rfl
    | true =>
      have hl := HasSuffix_getLast _ _ h (by decide)
      have hr := HasSuffix_getLast _ _ h1 (by decide)
      rw [hr] at hl
      exact absurd hl (by decide)
  simp only [covertInMemCacheError, Error.Error]
  rw [if_neg (by rw [h2]; decide), if_neg (by rw [h3]; decide), if_pos h1]

/-- Right after `Set`, `Get` returns the value that was set. -/
theorem Cache_Get_Set_same (C : Cache) (k : Str) (v : Value) (d : Int) :
    (C.Set k v d).Get k = some v := by
  simp only [Cache.Set, Cache.Get, Function.update_same]
  generalize (if d = 0 then C.defaultExpiration else d) = dd
  rw [if_neg]
  rintro ⟨h1, h2⟩
  by_cases hd : dd > 0
  · simp only [hd, if_true] at h2
    omega
  · simp only [hd, if_false] at h1
    omega

/-- `Set` leaves every other key as it was. -/
theorem Cache_Set_other (C : Cache) (k k2 : Str) (v : Value) (d : Int) (h : k2 ≠ k) :
    (C.Set k v d).items k2 = C.items k2 ∧ (C.Set k v d).Get k2 = C.Get k2 := by
  simp [Cache.Set, Cache.Get, Function.update_noteq h]

/-- A key `Get` does not return is one `Increment` and `Decrement` do not find. -/
theorem Cache_Increment_absent (C : Cache) (k : Str) (n : Int) (h : C.Get k = none) :
    C.Increment k n = (C, some (.other (str "Item " ++ k ++ str " not found"))) ∧
      C.Decrement k n = (C, some (.other (str "Item not found"))) := by
  unfold Cache.Get at h
  unfold Cache.Increment Cache.Decrement
  cases hi : C.items k with
  | none => simp
  | some item =>
    rw [hi] at h
    simp only at h
    split at h
    · rename_i hexp
      have he : item.Expired C.now = true := by
        unfold Item.Expired
        rw [if_neg (by omega)]
        simpa using hexp.2
      simp [he]
    · simp at h

theorem InMemoryStore_Add_present (c : InMemoryStore) (k : Str) (v : Value) (ttl : Int)
    (h : c.Cache.Get k ≠ none) : c.Add k v ttl = .ok (c, some .ErrNotStored) := by
  cases hg : c.Cache.Get k with
  | none => exact absurd hg h
  | some old =>
    simp only [InMemoryStore.Add, Cache.Add, hg]
    rw [covert_already_exists]

theorem InMemoryStore_Add_absent (c : InMemoryStore) (k : Str) (v : Value) (ttl : Int)
    (h : c.Cache.Get k = none) :
    c.Add k v ttl = .ok ({ Cache := c.Cache.Set k v ttl }, none) := by
  simp [InMemoryStore.Add, Cache.Add, h, covertInMemCacheError]

theorem InMemoryStore_Increment_absent (c : InMemoryStore) (k : Str) (n : Int)
    (h : c.Cache.Get k = none) :
    c.Increment k n = .ok (c, 0, some .ErrCacheMiss) ∧
      c.Decrement k n = .ok (c, 0, some .ErrCacheMiss) := by
  obtain ⟨hi, hd⟩ := Cache_Increment_absent c.Cache k n h
  have h1 := covert_not_found (str "Item " ++ k ++ str " ")
  have h2 := covert_not_found (str "Item ")
  have e1 : str "Item " ++ k ++ str " " ++ str "not found" = str "Item " ++ k ++ str " not found" := by
    have : str " not found" = str " " ++ str "not found" := by decide
    rw [this, List.append_assoc (str "Item " ++ k)]
  have e2 : str "Item " ++ str "not found" = str "Item not found" := by decide
  rw [e1] at h1
  rw [e2] at h2
  constructor
  · simp only [InMemoryStore.Increment, hi]
    rw [if_pos (by simp), h1]
  · simp only [InMemoryStore.Decrement, hd]
    rw [if_pos (by simp), h2]

/-- What `Get` returns `dt` nanoseconds after `Set`: the value, unless the effective
duration is positive, the expiry time is positive, and more than the duration has
passed. -/
theorem Cache_Get_Set_advance (C : Cache) (k : Str) (v : Value) (d : Int) (dt : Nat) :
    ((C.Set k v d).advance dt).Get k =
      if (if d = 0 then C.defaultExpiration else d) > 0 ∧
          C.now + (if d = 0 then C.defaultExpiration else d) > 0 ∧
          (dt : Int) > (if d = 0 then C.defaultExpiration else d) then none
      else some v := by
  simp only [Cache.Set, Cache.Get, Cache.advance, Function.update_same]
  generalize (if d = 0 then C.defaultExpiration else d) = dd
  by_cases hd : dd > 0
  · simp only [hd, if_true, true_and]
    by_cases h : C.now + dd > 0 ∧ (dt : Int) > dd
    · rw [if_pos h, if_pos ⟨h.1, by omega⟩]
    · rw [if_neg h, if_neg]
      rintro ⟨h1, h2⟩
      exact h ⟨h1, by omega⟩
  · simp only [hd, if_false, false_and]
    rw [if_neg]
    rintro ⟨h1, -⟩
    omega

/-- After `Set`, at every later time, every other key reads as it would have read. -/
theorem Cache_Set_other_advance (C : Cache) (k k2 : Str) (v : Value) (d : Int) (dt : Nat)
    (h : k2 ≠ k) : ((C.Set k v d).advance dt).Get k2 = (C.advance dt).Get k2 := by
  simp [Cache.Set, Cache.Get, Cache.advance, Function.update_noteq h]

/-! ## Claims on the in-memory store -/

/-- Claim C14 as stated fails: on a store created at time 1000, `Set` of the `int` 10
under `k` for one nanosecond returns nil, and the `Get` that follows it two nanoseconds
later, into an `int` variable holding 0, returns `ErrCacheMiss` and leaves the 0. -/
theorem Set_one_nanosecond_then_Get_misses :
    ∃ c1, (NewInMemoryStore 0 1000).Set (str "k") (.integer .int 10) 1 = .ok (c1, none) ∧
      c1.Cache.items (str "k") = some { Object := .integer .int 10, Expiration := 1001 } ∧
      (c1.Cache.advance 2).now = 1002 ∧
      ∃ c2, InMemoryStore.Get { Cache := c1.Cache.advance 2 } (str "k")
          (.ptr (.integer .int) (.integer .int 0)) =
        .ok (c2, .ptr (.integer .int) (.integer .int 0), some .ErrCacheMiss) :=
  ⟨_, rfl, by decide, by decide, _, rfl⟩

/-- Claim C14, amended: `Set` is an unconditional upsert read back by `Get` until the
entry expires. For every store state (key present or absent), key, duration `ttl` and
value that has a Go type, with `d` the effective duration (`ttl`, or the default of the
store when `ttl` is 0): `Set` returns nil and every other key reads, at every later time,
as it would have read without the `Set`. A `Get` made `dt` nanoseconds after the `Set`,
into a variable of the type of the value, returns nil and leaves the value in the variable
when `d` is not positive or `dt` is at most `d`; when `d` is positive, the expiry time fits
a positive `int64` and `dt` exceeds `d`, it returns `ErrCacheMiss` and leaves the variable
as it was. -/
theorem Set_then_Get_unexpired (c : InMemoryStore) (k : Str) (v : Value) (ttl : Int)
    (t : GoType) (old : Value) (hv : v.type = some t) :
    ∃ c1, c.Set k v ttl = .ok (c1, none) ∧
      (∀ k2, k2 ≠ k → c1.Cache.items k2 = c.Cache.items k2 ∧
        ∀ dt : Nat, (c1.Cache.advance dt).Get k2 = (c.Cache.advance dt).Get k2) ∧
      (∀ dt : Nat,
        ((if ttl = 0 then c.Cache.defaultExpiration else ttl) > 0 →
          (dt : Int) ≤ (if ttl = 0 then c.Cache.defaultExpiration else ttl)) →
        InMemoryStore.Get { Cache := c1.Cache.advance dt } k (.ptr t old) =
          .ok ({ Cache := c1.Cache.advance dt }, .ptr t v, none)) ∧
      (∀ dt : Nat, 0 ≤ c.Cache.now →
        (if ttl = 0 then c.Cache.defaultExpiration else ttl) > 0 →
        c.Cache.now + (if ttl = 0 then c.Cache.defaultExpiration else ttl) <
          9223372036854775808 →
        (dt : Int) > (if ttl = 0 then c.Cache.defaultExpiration else ttl) →
        InMemoryStore.Get { Cache := c1.Cache.advance dt } k (.ptr t old) =
          .ok ({ Cache := c1.Cache.advance dt }, .ptr t old, some .ErrCacheMiss)) := by
  refine ⟨{ Cache := c.Cache.Set k v ttl }, rfl, ?_, ?_, ?_⟩
  · intro k2 h2
    exact ⟨(Cache_Set_other c.Cache k k2 v ttl h2).1,
      fun dt => Cache_Set_other_advance c.Cache k k2 v ttl dt h2⟩
  · intro dt hdt
    have h := Cache_Get_Set_advance c.Cache k v ttl dt
    rw [if_neg] at h
    · simp only [InMemoryStore.Get, h, hv]
      simp
    · rintro ⟨h1, -, h3⟩
      have := hdt h1
      omega
  · intro dt hnow hd _ hdt
    have h := Cache_Get_Set_advance c.Cache k v ttl dt
    rw [if_pos ⟨hd, by omega, hdt⟩] at h
    simp only [InMemoryStore.Get, h]

/-- Claim C14, amended, on concrete inputs: the `int` 10 is set for five seconds over a
store that already holds a response under the key. One second later it is read back into
an `int`; six seconds later the `Get` returns `ErrCacheMiss`. -/
theorem Set_then_Get_unexpired_witness :
    (Value.integer .int 10).type = some (.integer .int) ∧
    ∃ c1, storeWithItems42.Set (str "echo-middleware.page.cache:/items/42?")
        (.integer .int 10) DefaultExpiration = .ok (c1, none) ∧
      InMemoryStore.Get { Cache := c1.Cache.advance 1000000000 }
          (str "echo-middleware.page.cache:/items/42?")
          (.ptr (.integer .int) (.integer .int 0)) =
        .ok ({ Cache := c1.Cache.advance 1000000000 },
          .ptr (.integer .int) (.integer .int 10), none) ∧
      InMemoryStore.Get { Cache := c1.Cache.advance 6000000000 }
          (str "echo-middleware.page.cache:/items/42?")
          (.ptr (.integer .int) (.integer .int 0)) =
        .ok ({ Cache := c1.Cache.advance 6000000000 },
          .ptr (.integer .int) (.integer .int 0), some .ErrCacheMiss) := by
  refine ⟨rfl, ?_⟩
  obtain ⟨c1, h1, -, h2, h3⟩ := Set_then_Get_unexpired storeWithItems42
    (str "echo-middleware.page.cache:/items/42?") (.integer .int 10) DefaultExpiration
    (.integer .int) (.integer .int 0) rfl
  exact ⟨c1, h1, h2 1000000000 (by intro _; decide),
    h3 6000000000 (by decide) (by decide) (by decide) (by decide)⟩

/-- Claim C15 as stated fails: on a store created at time 1000, `Add` of 1 under `k` for
one nanosecond returns nil, and the `Add` of 2 under `k` that follows it two nanoseconds
later returns nil, not `ErrNotStored`, and stores 2. -/
theorem Add_one_nanosecond_then_Add_stores :
    ∃ c1, (NewInMemoryStore 0 1000).Add (str "k") (.integer .int 1) 1 = .ok (c1, none) ∧
      c1.Cache.items (str "k") = some { Object := .integer .int 1, Expiration := 1001 } ∧
      (c1.Cache.advance 2).now = 1002 ∧
      ∃ c2, InMemoryStore.Add { Cache := c1.Cache.advance 2 } (str "k") (.integer .int 2)
          StayForever = .ok (c2, none) ∧
        c2.Cache.Get (str "k") = some (.integer .int 2) :=
  ⟨_, rfl, by decide, by decide, _, rfl, by decide⟩

/-- Claim C15, amended: preconditions of `Add` and `Replace`, judged at the time of the
call. For every store state, key, value and duration: `Add` returns `ErrNotStored` and
leaves the store as it was when the key is present and not expired, and otherwise returns
nil and stores the value; `Replace` returns `ErrNotStored` and leaves the store as it was
when the key is absent or expired, and otherwise returns nil and stores the value. After
an `Add` that stored with effective duration `d` (`ttl`, or the default of the store when
`ttl` is 0), an `Add` on the same key `dt` nanoseconds later returns `ErrNotStored` and
leaves the first value when `d` is not positive or `dt` is at most `d`; when `d` is
positive, the expiry time fits a positive `int64` and `dt` exceeds `d`, it returns nil and
stores the new value. After an `Add` that was refused, a later `Add` on the same key is
refused as long as the entry found has not expired. -/
theorem Add_Replace_preconditions_elapsed (c : InMemoryStore) (k : Str) (v : Value)
    (ttl : Int) :
    (c.Cache.Get k ≠ none → c.Add k v ttl = .ok (c, some .ErrNotStored)) ∧
    (c.Cache.Get k = none →
      c.Add k v ttl = .ok ({ Cache := c.Cache.Set k v ttl }, none) ∧
      (c.Cache.Set k v ttl).Get k = some v) ∧
    (c.Cache.Get k = none → c.Replace k v ttl = .ok (c, some .ErrNotStored)) ∧
    (c.Cache.Get k ≠ none →
      c.Replace k v ttl = .ok ({ Cache := c.Cache.Set k v ttl }, none) ∧
      (c.Cache.Set k v ttl).Get k = some v) ∧
    (∀ (c1 : InMemoryStore) (dt : Nat) (v2 : Value) (ttl2 : Int),
      c.Add k v ttl = .ok (c1, none) →
      ((if ttl = 0 then c.Cache.defaultExpiration else ttl) > 0 →
        (dt : Int) ≤ (if ttl = 0 then c.Cache.defaultExpiration else ttl)) →
      InMemoryStore.Add { Cache := c1.Cache.advance dt } k v2 ttl2 =
        .ok ({ Cache := c1.Cache.advance dt }, some .ErrNotStored) ∧
      (c1.Cache.advance dt).Get k = some v) ∧
    (∀ (c1 : InMemoryStore) (dt : Nat) (v2 : Value) (ttl2 : Int),
      c.Add k v ttl = .ok (c1, none) → 0 ≤ c.Cache.now →
      (if ttl = 0 then c.Cache.defaultExpiration else ttl) > 0 →
      c.Cache.now + (if ttl = 0 then c.Cache.defaultExpiration else ttl) <
        9223372036854775808 →
      (dt : Int) > (if ttl = 0 then c.Cache.defaultExpiration else ttl) →
      InMemoryStore.Add { Cache := c1.Cache.advance dt } k v2 ttl2 =
        .ok ({ Cache := (c1.Cache.advance dt).Set k v2 ttl2 }, none) ∧
      ((c1.Cache.advance dt).Set k v2 ttl2).Get k = some v2) ∧
    (∀ (c1 : InMemoryStore) (dt : Nat) (v2 : Value) (ttl2 : Int),
      c.Add k v ttl = .ok (c1, some .ErrNotStored) →
      (c.Cache.advance dt).Get k ≠ none →
      InMemoryStore.Add { Cache := c1.Cache.advance dt } k v2 ttl2 =
        .ok ({ Cache := c1.Cache.advance dt }, some .ErrNotStored)) := by
  have hstored : ∀ c1 : InMemoryStore, c.Add k v ttl = .ok (c1, none) →
      c1 = { Cache := c.Cache.Set k v ttl } := by
    intro c1 h1
    by_cases hg : c.Cache.Get k = none
    · rw [InMemoryStore_Add_absent c k v ttl hg] at h1
      simp only [Except.ok.injEq, Prod.mk.injEq, and_true] at h1
      exact h1.symm
    · rw [InMemoryStore_Add_present c k v ttl hg] at h1
      simp at h1
  refine ⟨InMemoryStore_Add_present c k v ttl, ?_, ?_, ?_, ?_, ?_, ?_⟩
  · intro h
    exact ⟨InMemoryStore_Add_absent c k v ttl h, Cache_Get_Set_same _ _ _ _⟩
  · intro h
    simp [InMemoryStore.Replace, Cache.Replace, h]
  · intro h
    cases hg : c.Cache.Get k with
    | none => exact absurd hg h
    | some old =>
      exact ⟨by simp [InMemoryStore.Replace, Cache.Replace, hg], Cache_Get_Set_same _ _ _ _⟩
  · intro c1 dt v2 ttl2 h1 hdt
    rw [hstored c1 h1]
    have h := Cache_Get_Set_advance c.Cache k v ttl dt
    rw [if_neg] at h
    · exact ⟨InMemoryStore_Add_present _ k v2 ttl2 (by simp [h]), h⟩
    · rintro ⟨h1, -, h3⟩
      have := hdt h1
      omega
  · intro c1 dt v2 ttl2 h1 hnow hd _ hdt
    rw [hstored c1 h1]
    have h := Cache_Get_Set_advance c.Cache k v ttl dt
    rw [if_pos ⟨hd, by omega, hdt⟩] at h
    exact ⟨InMemoryStore_Add_absent _ k v2 ttl2 h, Cache_Get_Set_same _ _ _ _⟩
  · intro c1 dt v2 ttl2 h1 hg
    have hc1 : c1 = c := by
      by_cases hg0 : c.Cache.Get k = none
      · rw [InMemoryStore_Add_absent c k v ttl hg0] at h1
        simp at h1
      · rw [InMemoryStore_Add_present c k v ttl hg0] at h1
        simp only [Except.ok.injEq, Prod.mk.injEq, and_true] at h1
        exact h1.symm
    rw [hc1]
    exact InMemoryStore_Add_present _ k v2 ttl2 hg

/-- Claim C15, amended, on concrete inputs: on an empty store `Replace` is refused and
`Add` for five seconds stores; an `Add` one second later is refused and the first value
stays; an `Add` six seconds later stores. -/
theorem Add_Replace_preconditions_elapsed_witness :
    (NewInMemoryStore 0 1000).Cache.Get (str "k") = none ∧
    (NewInMemoryStore 0 1000).Replace (str "k") (.integer .int 1) DefaultExpiration =
      .ok (NewInMemoryStore 0 1000, some .ErrNotStored) ∧
    ∃ c1, (NewInMemoryStore 0 1000).Add (str "k") (.integer .int 1) DefaultExpiration =
        .ok (c1, none) ∧
      (InMemoryStore.Add { Cache := c1.Cache.advance 1000000000 } (str "k") (.integer .int 2)
          StayForever = .ok ({ Cache := c1.Cache.advance 1000000000 }, some .ErrNotStored) ∧
        (c1.Cache.advance 1000000000).Get (str "k") = some (.integer .int 1)) ∧
      (InMemoryStore.Add { Cache := c1.Cache.advance 6000000000 } (str "k") (.integer .int 2)
          StayForever =
          .ok (⟨(c1.Cache.advance 6000000000).Set (str "k") (.integer .int 2) StayForever⟩,
            none) ∧
        ((c1.Cache.advance 6000000000).Set (str "k") (.integer .int 2) StayForever).Get
          (str "k") = some (.integer .int 2)) :=
  ⟨rfl,
    (Add_Replace_preconditions_elapsed (NewInMemoryStore 0 1000) (str "k") (.integer .int 1)
      DefaultExpiration).2.2.1 rfl,
    _,
    ((Add_Replace_preconditions_elapsed (NewInMemoryStore 0 1000) (str "k") (.integer .int 1)
      DefaultExpiration).2.1 rfl).1,
    (Add_Replace_preconditions_elapsed (NewInMemoryStore 0 1000) (str "k") (.integer .int 1)
      DefaultExpiration).2.2.2.2.1 _ 1000000000 (.integer .int 2) StayForever
      ((Add_Replace_preconditions_elapsed (NewInMemoryStore 0 1000) (str "k")
        (.integer .int 1) DefaultExpiration).2.1 rfl).1 (by intro _; decide),
    (Add_Replace_preconditions_elapsed (NewInMemoryStore 0 1000) (str "k") (.integer .int 1)
      DefaultExpiration).2.2.2.2.2.1 _ 6000000000 (.integer .int 2) StayForever
      ((Add_Replace_preconditions_elapsed (NewInMemoryStore 0 1000) (str "k")
        (.integer .int 1) DefaultExpiration).2.1 rfl).1 (by decide) (by decide) (by decide)
      (by decide)⟩

/-- Claim C16: absent keys are reported as `ErrCacheMiss`. For every store state and key:
`Delete` returns nil, whether or not the key was present, and a `Get` after it returns
`ErrCacheMiss`; `Flush` returns nil and a `Get` after it returns `ErrCacheMiss` for every
key; `Increment` and `Decrement` on a key that is absent or expired return 0 with
`ErrCacheMiss` and leave the store as it was. -/
theorem absent_key_ErrCacheMiss (c : InMemoryStore) (k : Str) (dest : Target) (n : Int) :
    (∃ c1, c.Delete k = .ok (c1, none) ∧ c1.Get k dest = .ok (c1, dest, some .ErrCacheMiss)) ∧
    (∃ c1, c.Flush = .ok (c1, none) ∧ c1.Get k dest = .ok (c1, dest, some .ErrCacheMiss)) ∧
    (c.Cache.Get k = none →
      c.Increment k n = .ok (c, 0, some .ErrCacheMiss) ∧
      c.Decrement k n = .ok (c, 0, some .ErrCacheMiss)) := by
  refine ⟨⟨{ Cache := c.Cache.Delete k }, rfl, ?_⟩, ⟨{ Cache := c.Cache.Flush }, rfl, ?_⟩,
    InMemoryStore_Increment_absent c k n⟩
  · simp [InMemoryStore.Get, Cache.Get, Cache.Delete]
  · simp [InMemoryStore.Get, Cache.Get, Cache.Flush]

/-- Claim C16 on concrete inputs: on the store that holds a response under the page key,
`Delete` of that key makes `Get` miss; on an empty store `Increment` misses. -/
theorem absent_key_ErrCacheMiss_witness :
    storeWithItems42.Cache.Get (str "echo-middleware.page.cache:/items/42?") ≠ none ∧
    (∃ c1, storeWithItems42.Delete (str "echo-middleware.page.cache:/items/42?") = .ok (c1, none) ∧
      c1.Get (str "echo-middleware.page.cache:/items/42?")
          (.ptr .response (.response { status := 0, header := [], data := [] })) =
        .ok (c1, .ptr .response (.response { status := 0, header := [], data := [] }),
          some .ErrCacheMiss)) ∧
    (NewInMemoryStore 0 0).Cache.Get (str "n") = none ∧
    (NewInMemoryStore 0 0).Increment (str "n") 5 =
      .ok (NewInMemoryStore 0 0, 0, some .ErrCacheMiss) :=
  ⟨by decide,
    (absent_key_ErrCacheMiss storeWithItems42 (str "echo-middleware.page.cache:/items/42?")
      (.ptr .response (.response { status := 0, header := [], data := [] })) 0).1,
    rfl,
    ((absent_key_ErrCacheMiss (NewInMemoryStore 0 0) (str "n") (.value .nil) 5).2.2 rfl).1⟩

/-- Claim C19: the error vocabulary of the backend is translated to the canonical errors.
`covertInMemCacheError` returns nil exactly for nil; `ErrCacheMiss` when the message ends
with `doesn't exist` or with `not found`; `ErrNotStored` when the message ends with
`already exists` (such a message never ends with `doesn't exist`); and the error itself in
every other case. Hence, for every key, every error `InMemoryStore.Add` returns is
`ErrNotStored`, and `Increment` and `Decrement` on an absent key return `ErrCacheMiss`. -/
theorem covertInMemCacheError_vocabulary :
    covertInMemCacheError none = none ∧
    (∀ e : Error, covertInMemCacheError (some e) ≠ none) ∧
    (∀ e : Error, HasSuffix e.Error (str "doesn't exist") = true ∨
        HasSuffix e.Error (str "not found") = true →
      covertInMemCacheError (some e) = some .ErrCacheMiss) ∧
    (∀ e : Error, HasSuffix e.Error (str "already exists") = true →
      HasSuffix e.Error (str "doesn't exist") = false ∧
        covertInMemCacheError (some e) = some .ErrNotStored) ∧
    (∀ e : Error, HasSuffix e.Error (str "doesn't exist") = false →
      HasSuffix e.Error (str "already exists") = false →
      HasSuffix e.Error (str "not found") = false →
      covertInMemCacheError (some e) = some e) ∧
    (∀ (c c1 : InMemoryStore) (k : Str) (v : Value) (ttl : Int) (err : Error),
      c.Add k v ttl = .ok (c1, some err) → err = .ErrNotStored) ∧
    (∀ (c : InMemoryStore) (k : Str) (n : Int), c.Cache.Get k = none →
      c.Increment k n = .ok (c, 0, some .ErrCacheMiss) ∧
      c.Decrement k n = .ok (c, 0, some .ErrCacheMiss)) := by
  refine ⟨rfl, ?_, ?_, ?_, ?_, ?_, InMemoryStore_Increment_absent⟩
  · intro e
    simp only [covertInMemCacheError]
    split <;> [simp; (split <;> [simp; (split <;> simp)])]
  · intro e h
    simp only [covertInMemCacheError]
    by_cases h1 : HasSuffix e.Error (str "doesn't exist") = true
    · rw [if_pos h1]
    · rw [if_neg h1]
      have h3 : HasSuffix e.Error (str "not found") = true := h.resolve_left h1
      have h2 : ¬ HasSuffix e.Error (str "already exists") = true := by
        intro h2
        have hl := HasSuffix_getLast _ _ h2 (by decide)
        have hr := HasSuffix_getLast _ _ h3 (by decide)
        rw [hr] at hl
        exact absurd hl (by decide)
      rw [if_neg h2, if_pos h3]
  · intro e h
    have h1 : HasSuffix e.Error (str "doesn't exist") = false := by
      cases h1 : HasSuffix e.Error (str "doesn't exist") with
      | false => rfl
      | true =>
        have hl := HasSuffix_getLast _ _ h1 (by decide)
        have hr := HasSuffix_getLast _ _ h (by decide)
        rw [hr] at hl
        exact absurd hl (by decide)
    refine ⟨h1, ?_⟩
    simp only [covertInMemCacheError]
    rw [if_neg (by rw [h1]; decide), if_pos h]
  · intro e h1 h2 h3
    simp only [covertInMemCacheError]
    rw [if_neg (by rw [h1]; decide), if_neg (by rw [h2]; decide), if_neg (by rw [h3]; decide)]
  · intro c c1 k v ttl err h
    by_cases hg : c.Cache.Get k = none
    · rw [InMemoryStore_Add_absent c k v ttl hg] at h
      simp at h
    · rw [InMemoryStore_Add_present c k v ttl hg] at h
      simp only [Except.ok.injEq, Prod.mk.injEq, Option.some.injEq] at h
      exact h.2.symm

/-- Claim C19 on concrete inputs: the three messages of go-cache with the key `k`, and a
message of another kind, which is returned as it is. -/
theorem covertInMemCacheError_vocabulary_witness :
    covertInMemCacheError (some (.other (str "Item k doesn't exist"))) = some .ErrCacheMiss ∧
    covertInMemCacheError (some (.other (str "Item k not found"))) = some .ErrCacheMiss ∧
    covertInMemCacheError (some (.other (str "Item k already exists"))) = some .ErrNotStored ∧
    covertInMemCacheError (some (.other (str "The value for k is not an integer"))) =
      some (.other (str "The value for k is not an integer")) :=
  ⟨covertInMemCacheError_vocabulary.2.2.1 _ (Or.inl (by decide)),
    covertInMemCacheError_vocabulary.2.2.1 _ (Or.inr (by decide)),
    (covertInMemCacheError_vocabulary.2.2.2.1 _ (by decide)).2,
    covertInMemCacheError_vocabulary.2.2.2.2.1 _ (by decide) (by decide) (by decide)⟩

/-- Converting a value that the type holds changes nothing. -/
theorem wrap_of_range (k : IntKind) (x : Int) (h1 : k.min ≤ x) (h2 : x ≤ k.max) :
    k.wrap x = x := by
  cases k <;>
    simp only [IntKind.min, IntKind.max, IntKind.signed, IntKind.bits, if_true,
      Bool.false_eq_true, if_false] at h1 h2 <;>
    simp only [IntKind.wrap, IntKind.signed, IntKind.bits, if_true, Bool.false_eq_true,
      if_false] <;>
    norm_num at h1 h2 ⊢ <;> omega

/-- Claim C17, as the code behaves. Scenario D: after `Set("n", 10, StayForever)` with
the Go constant 10, stored as an `int`, go-cache adds 5 and holds 15, but
`InMemoryStore.Increment("n", 5)` panics in the type assertion `newValue.(int64)`, and so
does `Decrement`. The arithmetic the claim states holds when the stored value is an
`int64`: for `v`, `n` and `v + n` in the range of `int64`, `Increment` returns `v + n`
with nil and `Get` then yields `v + n`; `Decrement` returns `v - n` likewise. -/
theorem Increment_int_panics :
    (NewInMemoryStore 0 0).Set (str "n") (.integer .int 10) StayForever = .ok (storeN10, none) ∧
    (storeN10.Cache.Increment (str "n") 5).1.Get (str "n") = some (.integer .int 15) ∧
    storeN10.Increment (str "n") 5 = .error "interface conversion: interface {} is not int64" ∧
    storeN10.Decrement (str "n") 5 = .error "interface conversion: interface {} is not int64" ∧
    (∀ (c : InMemoryStore) (k : Str) (v n : Int),
      IntKind.int64.min ≤ v → v ≤ IntKind.int64.max →
      IntKind.int64.min ≤ n → n ≤ IntKind.int64.max →
      (IntKind.int64.min ≤ v + n → v + n ≤ IntKind.int64.max →
        ∃ c2, InMemoryStore.Increment { Cache := c.Cache.Set k (.integer .int64 v) StayForever }
            k n = .ok (c2, v + n, none) ∧
          c2.Get k (.ptr (.integer .int64) (.integer .int64 0)) =
            .ok (c2, .ptr (.integer .int64) (.integer .int64 (v + n)), none)) ∧
      (IntKind.int64.min ≤ v - n → v - n ≤ IntKind.int64.max →
        ∃ c2, InMemoryStore.Decrement { Cache := c.Cache.Set k (.integer .int64 v) StayForever }
            k n = .ok (c2, v - n, none) ∧
          c2.Get k (.ptr (.integer .int64) (.integer .int64 0)) =
            .ok (c2, .ptr (.integer .int64) (.integer .int64 (v - n)), none))) := by
  refine ⟨rfl, by decide, rfl, rfl, ?_⟩
  intro c k v n hv1 hv2 hn1 hn2
  have hwn := wrap_of_range .int64 n hn1 hn2
  constructor
  · intro h1 h2
    have hw := wrap_of_range .int64 (v + n) h1 h2
    refine ⟨{ Cache := ((c.Cache.Set k (.integer .int64 v) StayForever).Increment k n).1 },
      ?_, ?_⟩
    · simp [InMemoryStore.Increment, Cache.Increment, Cache.Set, StayForever, Item.Expired,
        hwn, hw, Cache.Get, assertInt64]
    · simp [InMemoryStore.Get, Cache.Increment, Cache.Set, StayForever, Item.Expired,
        hwn, hw, Cache.Get, Value.type]
  · intro h1 h2
    have hw := wrap_of_range .int64 (v - n) h1 h2
    refine ⟨{ Cache := ((c.Cache.Set k (.integer .int64 v) StayForever).Decrement k n).1 },
      ?_, ?_⟩
    · simp [InMemoryStore.Decrement, Cache.Decrement, Cache.Set, StayForever, Item.Expired,
        hwn, hw, Cache.Get, assertInt64]
    · simp [InMemoryStore.Get, Cache.Decrement, Cache.Set, StayForever, Item.Expired,
        hwn, hw, Cache.Get, Value.type]

/-- Claim C18, as the code behaves. `InMemoryStore.Get` returns `ErrNotStored` and leaves
the destination as it was when the destination is a value that is not a pointer or is a
nil pointer; but when the destination is a pointer and the stored value is nil or of a
type that cannot be assigned to the variable, `reflect` panics. At the failing input, a
store holding the `int` 7 under the page key of GET `/items/42`: `Get` into a
`responseCache` variable and into a `string` variable panics, `Get` of a stored nil
panics, and the page-cache handler panics for every next stage instead of treating the
lookup as a miss. -/
theorem Get_mismatch_panics :
    (∀ (c : InMemoryStore) (k : Str) (val v : Value), c.Cache.Get k = some val → v ≠ .nil →
      c.Get k (.value v) = .ok (c, .value v, some .ErrNotStored)) ∧
    (∀ (c : InMemoryStore) (k : Str) (val : Value) (t : GoType), c.Cache.Get k = some val →
      c.Get k (.nilPtr t) = .ok (c, .nilPtr t, some .ErrNotStored)) ∧
    (∀ (c : InMemoryStore) (k : Str) (val old : Value) (t vt : GoType),
      c.Cache.Get k = some val → val.type = some vt → vt ≠ t → t ≠ .iface →
      c.Get k (.ptr t old) =
        .error "reflect.Set: value is not assignable to the destination type") ∧
    (∀ (c : InMemoryStore) (k : Str) (old : Value) (t : GoType),
      c.Cache.Get k = some .nil →
      c.Get k (.ptr t old) = .error "reflect: call of reflect.Value.Set on zero Value") ∧
    storeWithInt.Cache.Get (str "echo-middleware.page.cache:/items/42?") =
      some (.integer .int 7) ∧
    storeWithInt.Get (str "echo-middleware.page.cache:/items/42?")
        (.ptr .response (.response { status := 0, header := [], data := [] })) =
      .error "reflect.Set: value is not assignable to the destination type" ∧
    storeWithInt.Get (str "echo-middleware.page.cache:/items/42?") (.ptr .string (.string [])) =
      .error "reflect.Set: value is not assignable to the destination type" ∧
    storeWithNil.Get (str "echo-middleware.page.cache:/items/42?") (.ptr .iface .nil) =
      .error "reflect: call of reflect.Value.Set on zero Value" ∧
    (∀ next : HandlerFunc InMemoryStore Conn,
      JSONPostPageCache exampleGet DefaultCacheConfig [] next
          (Context.start inMemoryStore storeWithInt getItems42) =
        .error "reflect.Set: value is not assignable to the destination type") := by
  refine ⟨?_, ?_, ?_, ?_, by decide, rfl, rfl, rfl, fun next => rfl⟩
  · intro c k val v h hv
    cases v with
    | nil => exact absurd rfl hv
    | _ => simp [InMemoryStore.Get, h]
  · intro c k val t h
    simp [InMemoryStore.Get, h]
  · intro c k val old t vt h hvt hne hi
    simp [InMemoryStore.Get, h, hvt, hne, hi]
  · intro c k old t h
    simp [InMemoryStore.Get, h, Value.type]

/-! ## Claim on the heartbeat -/

/-- The digits `digitsRev` produces are decimal digits, there is at least one, and they
denote `n`. -/
theorem digitsRev_spec (fuel : Nat) : ∀ n, n < fuel →
    (∀ d ∈ digitsRev fuel n, d < 10) ∧ digitsRev fuel n ≠ [] ∧
      (digitsRev fuel n).foldr (fun d acc => acc * 10 + d) 0 = n := by
  induction fuel with
  | zero => intro n h; omega
  | succ fuel ih =>
    intro n h
    unfold digitsRev
    by_cases h10 : n < 10
    · simp [h10]
    · rw [if_neg h10]
      obtain ⟨h1, -, h3⟩ := ih (n / 10) (by omega)
      refine ⟨?_, by simp, ?_⟩
      · intro d hd
        rcases List.mem_cons.mp hd with rfl | hd
        · omega
        · exact h1 d hd
      · simp only [List.foldr_cons, h3]
        omega

theorem decimalValue_map_reverse (l : List Nat) :
    decimalValue (l.reverse.map (fun d => 48 + d)) = l.foldr (fun d acc => acc * 10 + d) 0 := by
  unfold decimalValue
  rw [List.foldl_map, List.foldl_reverse]
  congr 1
  funext d acc
  omega

/-- `FormatUint` writes decimal text of its argument. -/
theorem FormatUint_spec (n : Nat) : isDecimal (FormatUint n) ∧ decimalValue (FormatUint n) = n := by
  obtain ⟨h1, h2, h3⟩ := digitsRev_spec (n + 1) n (by omega)
  refine ⟨⟨?_, ?_⟩, ?_⟩
  · simpa [FormatUint] using h2
  · intro c hc
    simp only [FormatUint, List.mem_map, List.mem_reverse] at hc
    obtain ⟨d, hd, rfl⟩ := hc
    have := h1 d hd
    omega
  · rw [FormatUint, decimalValue_map_reverse, h3]

theorem foldl_decimal_le (s : Str) : ∀ acc : Nat,
    acc ≤ s.foldl (fun acc c => acc * 10 + (c - 48)) acc := by
  induction s with
  | nil => intro acc; exact le_refl _
  | cons c rest ih =>
    intro acc
    simp only [List.foldl_cons]
    have := ih (acc * 10 + (c - 48))
    omega

/-- The loop of `ParseUint` returns the denoted number when every byte is a digit and
that number fits 64 bits. -/
theorem parseUintLoop_ok (s0 : Str) (s : Str) : ∀ acc : Nat,
    (∀ c ∈ s, 48 ≤ c ∧ c ≤ 57) →
    s.foldl (fun acc c => acc * 10 + (c - 48)) acc < 2 ^ 64 →
    parseUintLoop s0 s acc = (s.foldl (fun acc c => acc * 10 + (c - 48)) acc, none) := by
  induction s with
  | nil => intro acc _ _; rfl
  | cons c rest ih =>
    intro acc hd hlt
    have hc := hd c (by simp)
    simp only [List.foldl_cons] at hlt ⊢
    have hmono := foldl_decimal_le rest (acc * 10 + (c - 48))
    have hsmall : acc * 10 + (c - 48) < 2 ^ 64 := lt_of_le_of_lt hmono hlt
    norm_num at hsmall
    unfold parseUintLoop
    simp only [maxUint64]
    rw [if_pos hc, if_neg (by omega)]
    have e1 : acc * 10 % 2 ^ 64 = acc * 10 := Nat.mod_eq_of_lt (by norm_num; omega)
    have e2 : (acc * 10 + (c - 48)) % 2 ^ 64 = acc * 10 + (c - 48) :=
      Nat.mod_eq_of_lt (by norm_num; omega)
    simp only [e1, e2]
    rw [if_neg (by omega)]
    exact ih _ (fun x hx => hd x (List.mem_cons_of_mem _ hx)) hlt

/-- When the loop of `ParseUint` returns no error, every byte is a digit and the denoted
number fits 64 bits. -/
theorem parseUintLoop_none (s0 : Str) (s : Str) : ∀ acc : Nat, acc < 2 ^ 64 →
    (parseUintLoop s0 s acc).2 = none →
    (∀ c ∈ s, 48 ≤ c ∧ c ≤ 57) ∧ s.foldl (fun acc c => acc * 10 + (c - 48)) acc < 2 ^ 64 := by
  induction s with
  | nil => intro acc h _; exact ⟨by simp, by simpa using h⟩
  | cons c rest ih =>
    intro acc hacc h
    unfold parseUintLoop at h
    simp only [maxUint64] at h
    by_cases hc : 48 ≤ c ∧ c ≤ 57
    · rw [if_pos hc] at h
      by_cases hcut : acc ≥ 18446744073709551615 / 10 + 1
      · rw [if_pos hcut] at h
        simp at h
      · rw [if_neg hcut] at h
        have e1 : acc * 10 % 2 ^ 64 = acc * 10 := Nat.mod_eq_of_lt (by norm_num; omega)
        simp only [e1] at h
        by_cases hov : (acc * 10 + (c - 48)) % 2 ^ 64 < acc * 10 ∨
            (acc * 10 + (c - 48)) % 2 ^ 64 > 18446744073709551615
        · rw [if_pos hov] at h
          simp at h
        · rw [if_neg hov] at h
          have e2 : (acc * 10 + (c - 48)) % 2 ^ 64 = acc * 10 + (c - 48) := by
            apply Nat.mod_eq_of_lt
            by_contra hge
            apply hov
            left
            norm_num at hge ⊢
            omega
          rw [e2] at h
          have hlt : acc * 10 + (c - 48) < 2 ^ 64 := by
            rw [← e2]
            exact Nat.mod_lt _ (by norm_num)
          obtain ⟨hd, hv⟩ := ih _ hlt h
          refine ⟨?_, by simpa using hv⟩
          intro x hx
          rcases List.mem_cons.mp hx with rfl | hx
          · exact hc
          · exact hd x hx
    · rw [if_neg hc] at h
      simp at h

/-- `ParseUint` accepts exactly the decimal texts of numbers that fit 64 bits, and
returns the denoted number. -/
theorem ParseUint_spec (s : Str) :
    ((ParseUint s).2 = none ↔ isDecimal s ∧ decimalValue s < 2 ^ 64) ∧
      ((ParseUint s).2 = none → (ParseUint s).1 = decimalValue s) := by
  have hfwd : isDecimal s ∧ decimalValue s < 2 ^ 64 → ParseUint s = (decimalValue s, none) := by
    rintro ⟨⟨hne, hd⟩, hlt⟩
    unfold ParseUint
    rw [if_neg hne]
    exact parseUintLoop_ok s s 0 hd hlt
  have hbwd : (ParseUint s).2 = none → isDecimal s ∧ decimalValue s < 2 ^ 64 := by
    intro h
    unfold ParseUint at h
    by_cases hne : s = []
    · rw [if_pos hne] at h
      simp at h
    · rw [if_neg hne] at h
      obtain ⟨hd, hlt⟩ := parseUintLoop_none s s 0 (by norm_num) h
      exact ⟨⟨hne, hd⟩, hlt⟩
  refine ⟨⟨hbwd, fun h => by rw [hfwd h]⟩, fun h => by rw [hfwd (hbwd h)]⟩

theorem wrap_int64 (x : Int) :
    IntKind.int64.wrap x =
      (x + 9223372036854775808) % 18446744073709551616 - 9223372036854775808 := by
  simp only [IntKind.wrap, IntKind.signed, IntKind.bits, if_true]
  norm_num

theorem ParseInt_cons (c : Nat) (rest : Str) :
    ParseInt (c :: rest) =
      if (ParseUint (if c = 43 ∨ c = 45 then rest else c :: rest)).2.map (fun e => e.Err) =
          some .ErrSyntax then
        (0, some (syntaxError (str "ParseInt") (c :: rest)))
      else if decide (c = 45) = false ∧
          (ParseUint (if c = 43 ∨ c = 45 then rest else c :: rest)).1 ≥ 2 ^ 63 then
        (((2 ^ 63 : Nat) : Int) - 1, some (rangeError (str "ParseInt") (c :: rest)))
      else if decide (c = 45) = true ∧
          (ParseUint (if c = 43 ∨ c = 45 then rest else c :: rest)).1 > 2 ^ 63 then
        (-((2 ^ 63 : Nat) : Int), some (rangeError (str "ParseInt") (c :: rest)))
      else
        (if decide (c = 45) = true then
            IntKind.int64.wrap (-(IntKind.int64.wrap
              ((ParseUint (if c = 43 ∨ c = 45 then rest else c :: rest)).1 : Int)))
          else IntKind.int64.wrap
            ((ParseUint (if c = 43 ∨ c = 45 then rest else c :: rest)).1 : Int), none) := rfl

/-- `ParseInt` returns the denoted integer on base-10 text of an integer that fits 64
bits. -/
theorem ParseInt_of_text (s : Str) (v : Int) (h : DecimalText s v)
    (h1 : -9223372036854775808 ≤ v) (h2 : v < 9223372036854775808) : ParseInt s = (v, none) := by
  have key : ∀ (c : Nat) (rest r : Str) (neg : Bool), s = c :: rest →
      (if c = 43 ∨ c = 45 then rest else c :: rest) = r → decide (c = 45) = neg →
      isDecimal r → v = (if neg then -(decimalValue r : Int) else (decimalValue r : Int)) →
      ParseInt s = (v, none) := by
    intro c rest r neg hs hr hneg hdec hv
    have hlt : decimalValue r < 2 ^ 64 := by
      norm_num
      cases neg <;> simp at hv <;> omega
    have hP := (ParseUint_spec r).1.mpr ⟨hdec, hlt⟩
    have hV := (ParseUint_spec r).2 hP
    rw [hs, ParseInt_cons, hr, hneg, hP, hV]
    simp only [Option.map_none', reduceCtorEq, if_false]
    cases neg with
    | false =>
      simp only [Bool.false_eq_true, if_false] at hv
      rw [if_neg (by norm_num; omega), if_neg (by simp)]
      simp only [Bool.false_eq_true, if_false, wrap_int64]
      rw [Prod.mk.injEq]
      exact ⟨by omega, rfl⟩
    | true =>
      simp only [if_true] at hv
      rw [if_neg (by simp), if_neg (by norm_num; omega)]
      simp only [if_true, wrap_int64]
      rw [Prod.mk.injEq]
      exact ⟨by omega, rfl⟩
  rcases h with ⟨hdec, hv⟩ | ⟨r, hs, hdec, hv⟩ | ⟨r, hs, hdec, hv⟩
  · obtain ⟨hne, hd⟩ := hdec
    cases hs : s with
    | nil => exact absurd hs hne
    | cons c rest =>
      have hc := hd c (by rw [hs]; simp)
      rw [← hs]
      refine key c rest s false hs ?_ ?_ ⟨hne, hd⟩ (by simpa using hv)
      · rw [if_neg (by omega), hs]
      · simp; omega
  · exact key 43 r r false hs (by simp) (by simp) hdec (by simpa using hv)
  · exact key 45 r r true hs (by simp) (by simp) hdec (by simpa using hv)

/-- `FormatInt` writes base-10 text of its argument. -/
theorem FormatInt_spec (v : Int) : DecimalText (FormatInt v) v := by
  unfold FormatInt
  by_cases hv : v < 0
  · rw [if_pos hv]
    obtain ⟨hd, hval⟩ := FormatUint_spec v.natAbs
    exact Or.inr (Or.inr ⟨_, rfl, hd, by rw [hval]; omega⟩)
  · rw [if_neg hv]
    obtain ⟨hd, hval⟩ := FormatUint_spec v.toNat
    exact Or.inl ⟨hd, by rw [hval]; omega⟩

theorem signed_range (k : IntKind) (v : Int) (hk : k.signed = true) (h1 : k.min ≤ v)
    (h2 : v ≤ k.max) : -9223372036854775808 ≤ v ∧ v < 9223372036854775808 := by
  cases k <;> simp only [IntKind.signed, Bool.false_eq_true] at hk <;>
    simp only [IntKind.min, IntKind.max, IntKind.signed, IntKind.bits, if_true] at h1 h2 <;>
    norm_num at h1 h2 <;> omega

theorem unsigned_range (k : IntKind) (v : Int) (hk : k.signed = false) (h1 : k.min ≤ v)
    (h2 : v ≤ k.max) : 0 ≤ v ∧ v < 18446744073709551616 := by
  cases k <;> simp only [IntKind.signed, reduceCtorEq] at hk <;>
    simp only [IntKind.min, IntKind.max, IntKind.signed, IntKind.bits, Bool.false_eq_true,
      if_false] at h1 h2 <;>
    norm_num at h1 h2 <;> omega

theorem deserialize_signed (gobDecode : Bytes → Target → Except Panic (Target × Option Error))
    (k : IntKind) (s : Str) (old : Value) (hk : k.signed = true) :
    deserialize gobDecode s (.ptr (.integer k) old) =
      match (ParseInt s).2 with
      | some err => .ok (.ptr (.integer k) old, some err.toError)
      | none => .ok (.ptr (.integer k) (.integer k (k.wrap (ParseInt s).1)), none) := by
  simp only [deserialize, hk, if_true]

theorem deserialize_unsigned (gobDecode : Bytes → Target → Except Panic (Target × Option Error))
    (k : IntKind) (s : Str) (old : Value) (hk : k.signed = false) (hp : k ≠ .uintptr) :
    deserialize gobDecode s (.ptr (.integer k) old) =
      match (ParseUint s).2 with
      | some err => .ok (.ptr (.integer k) old, some err.toError)
      | none => .ok (.ptr (.integer k) (.integer k (k.wrap (ParseUint s).1)), none) := by
  simp only [deserialize, hk, Bool.false_eq_true, if_false, hp, ne_eq, not_false_eq_true, if_true]

/-! ## Claims on the codec -/

/-- Claim C12: the codec round trip for raw bytes and integers. For every byte sequence,
`serialize` returns it with nil and `deserialize` of it into a `*[]byte` leaves it in the
variable. For each of the five signed and five unsigned integer types and every value of
the type, `serialize` returns nil with a text whose `deserialize` into a variable of the
same type returns nil and leaves the value in the variable. -/
theorem codec_round_trip (gobEncode : Value → Bytes × Option Error)
    (gobDecode : Bytes → Target → Except Panic (Target × Option Error)) :
    (∀ (b : Bytes) (p : byteBufferPool) (old : Value),
      (serialize gobEncode (.bytes b) p).1 = (b, none) ∧
      deserialize gobDecode b (.ptr .bytes old) = .ok (.ptr .bytes (.bytes b), none)) ∧
    (∀ (k : IntKind) (v : Int) (p : byteBufferPool) (old : Value),
      k ≠ .uintptr → k.min ≤ v → v ≤ k.max →
      ∃ text, (serialize gobEncode (.integer k v) p).1 = (text, none) ∧
        deserialize gobDecode text (.ptr (.integer k) old) =
          .ok (.ptr (.integer k) (.integer k v), none)) := by
  refine ⟨fun b p old => ⟨rfl, rfl⟩, ?_⟩
  intro k v p old hp h1 h2
  have hw := wrap_of_range k v h1 h2
  cases hk : k.signed with
  | true =>
    obtain ⟨r1, r2⟩ := signed_range k v hk h1 h2
    refine ⟨FormatInt v, by simp [serialize, hk], ?_⟩
    rw [deserialize_signed gobDecode k _ old hk, ParseInt_of_text _ v (FormatInt_spec v) r1 r2]
    simp only [hw]
  | false =>
    obtain ⟨r1, r2⟩ := unsigned_range k v hk h1 h2
    obtain ⟨hd, hval⟩ := FormatUint_spec v.toNat
    have hlt : decimalValue (FormatUint v.toNat) < 2 ^ 64 := by
      rw [hval]; norm_num; omega
    have hP := (ParseUint_spec (FormatUint v.toNat)).1.mpr ⟨hd, hlt⟩
    have hV := (ParseUint_spec (FormatUint v.toNat)).2 hP
    refine ⟨FormatUint v.toNat, by simp [serialize, hk, hp], ?_⟩
    rw [deserialize_unsigned gobDecode k _ old hk hp, hP]
    simp only [hV, hval]
    have : ((v.toNat : Nat) : Int) = v := Int.toNat_of_nonneg r1
    rw [this, hw]

/-- Claim C12 on concrete inputs: the bytes `ok`, the `int8` value -128 and the `uint64`
value `1<<64 - 1` come back from their serialized form. -/
theorem codec_round_trip_witness :
    deserialize gobRefuseDecode (str "ok") (.ptr .bytes (.bytes [])) =
      .ok (.ptr .bytes (.bytes (str "ok")), none) ∧
    (∃ text, (serialize gobRefuse (.integer .int8 (-128)) byteBufferPool.empty).1 = (text, none) ∧
      deserialize gobRefuseDecode text (.ptr (.integer .int8) (.integer .int8 0)) =
        .ok (.ptr (.integer .int8) (.integer .int8 (-128)), none)) ∧
    (serialize gobRefuse (.integer .int8 (-128)) byteBufferPool.empty).1 = (str "-128", none) ∧
    (∃ text, (serialize gobRefuse (.integer .uint64 18446744073709551615)
        byteBufferPool.empty).1 = (text, none) ∧
      deserialize gobRefuseDecode text (.ptr (.integer .uint64) (.integer .uint64 0)) =
        .ok (.ptr (.integer .uint64) (.integer .uint64 18446744073709551615), none)) :=
  ⟨((codec_round_trip gobRefuse gobRefuseDecode).1 (str "ok") byteBufferPool.empty
      (.bytes [])).2,
    (codec_round_trip gobRefuse gobRefuseDecode).2 .int8 (-128) byteBufferPool.empty
      (.integer .int8 0) (by decide) (by decide) (by decide),
    by decide,
    (codec_round_trip gobRefuse gobRefuseDecode).2 .uint64 18446744073709551615
      byteBufferPool.empty (.integer .uint64 0) (by decide) (by decide) (by decide)⟩

end EchoMiddleware
